import Mathlib

/-!
Shallow embedding of the value engine of `bfcalc.c` (the calculator core of the
repository) together with proofs about the spec's claims.

The embedding follows the C source function by function:

* value kinds (`BCTypeEnum`), binary/unary operation tags (`BCOP2Enum`,
  `BCOP1Enum`), the value union (`BCValue`) and the error channel
  (`BCError` / `BCResult`, modelling the pending-error slot plus the
  `BC_EXCEPTION` sentinel as an error-carrying result);
* arbitrary-precision integers are modelled by `ℤ`, finite decimal/binary
  floating point values by exact `ℚ` (the external bignum library `libbf` is
  not part of the sources; only its contract is specified, see the doc
  comments marked "Modelled from the spec");
* each `c*_op2` / `c*_op1` family function is translated under its C name.

Reference counting, the `BCContext` argument and the printable error message
buffer are representation details without observable effect on the modelled
results; error messages are kept verbatim.
-/

/-- Kind tag of a value (`BCTypeEnum` in bfcalc.c).  The declaration order is
load-bearing: binary dispatch promotes to the maximum tag. -/
inductive BCTypeEnum where
  | BOOL
  | INT
  | FRAC
  | DECIMAL
  | FLOAT
  | COMPLEX
  | POLY
  | RFRAC
  | SER
  | TENSOR
  | ARRAY
  | FUNCTION
  | STRING
  | NULL
  | RANGE
deriving DecidableEq, Repr

/-- Numeric value of the C enum constant (the comparisons `t1->tag < t2->tag`
etc. in the source compare these numbers). -/
def ctypeIdx : BCTypeEnum → Nat
  | .BOOL => 0
  | .INT => 1
  | .FRAC => 2
  | .DECIMAL => 3
  | .FLOAT => 4
  | .COMPLEX => 5
  | .POLY => 6
  | .RFRAC => 7
  | .SER => 8
  | .TENSOR => 9
  | .ARRAY => 10
  | .FUNCTION => 11
  | .STRING => 12
  | .NULL => 13
  | .RANGE => 14

/-- `t1 <= t2` on kind tags, written `cval_type(v) <= CTYPE_...` in the source. -/
def ctypeLe (t1 t2 : BCTypeEnum) : Bool := ctypeIdx t1 ≤ ctypeIdx t2

/-- `t1 < t2` on kind tags. -/
def ctypeLt (t1 t2 : BCTypeEnum) : Bool := ctypeIdx t1 < ctypeIdx t2

/-- `max_int(tag1, tag2)` on kind tags, as used by the binary dispatch. -/
def ctypeMax (t1 t2 : BCTypeEnum) : BCTypeEnum := if ctypeLt t1 t2 then t2 else t1

/-- Error taxonomy (`BCErrorTypeEnum`). -/
inductive BCErrorTypeEnum where
  | TYPE
  | RANGE
  | SYNTAX
  | REFERENCE
deriving DecidableEq, Repr

/-- Pending error: kind plus message (`ctx->error_type`, `ctx->error_msg`). -/
structure BCError where
  kind : BCErrorTypeEnum
  msg : String
deriving DecidableEq, Repr

/-- Binary operation tags (`BCOP2Enum`). -/
inductive BCOP2Enum where
  | ADD
  | SUB
  | MUL
  | DIV
  | MOD
  | POW
  | ATAN2
  | DOT_MUL
  | CMP_EQ
  | CMP_LT
  | CMP_LE
  | OR
  | AND
  | XOR
  | DIVREM
  | FRAC_DIV
deriving DecidableEq, Repr

/-- Unary operation tags (`BCOP1Enum`). -/
inductive BCOP1Enum where
  | NEG
  | ABS
  | TRUNC
  | FLOOR
  | CEIL
  | ROUND
  | CONJ
  | RE
  | IM
  | SQRT
  | EXP
  | LOG
  | SIN
  | COS
  | TAN
  | ASIN
  | ACOS
  | ATAN
deriving DecidableEq, Repr

/-- Modelled from the spec: payload of an arbitrary-precision decimal
(`bfdec_t`) or binary (`bf_t`) floating point number of the external bignum
library.  `libbf` itself is not under `src/`; the spec fixes its contract in
§3 ("NaN and ±Inf representable") and §6.  Finite values are kept as exact
rationals: the context-precision rounding of the library is abstracted to
infinite precision, and no claim below depends on rounded digits.  A negative
zero is identified with zero. -/
inductive DecVal where
  | nan
  | inf (neg : Bool)
  | fin (q : ℚ)
deriving DecidableEq, Repr

/-- Modelled from the spec: finite results of the library's transcendental
primitives (`bf_exp`, `bf_log`, `bf_atan2`, trigonometry, `bf_pow`) are
precision-dependent approximations whose digits no claim constrains; the model
maps them to a fixed unspecified representative.  Only totality, the special
values and the result kind matter for the claims. -/
def transApprox1 (_q : ℚ) : ℚ := 0

/-- Modelled from the spec: binary variant of `transApprox1`. -/
def transApprox2 (_q1 _q2 : ℚ) : ℚ := 0

/-- Modelled from the spec: IEEE-style addition on decimal/binary floats
(`bfdec_add` / `bf_add`), exact on finite operands. -/
def decAdd : DecVal → DecVal → DecVal
  | .nan, _ => .nan
  | _, .nan => .nan
  | .inf s1, .inf s2 => if s1 = s2 then .inf s1 else .nan
  | .inf s1, .fin _ => .inf s1
  | .fin _, .inf s2 => .inf s2
  | .fin q1, .fin q2 => .fin (q1 + q2)

/-- Modelled from the spec: negation of a float payload (`bf_neg`). -/
def decNeg : DecVal → DecVal
  | .nan => .nan
  | .inf s => .inf (!s)
  | .fin q => .fin (-q)

/-- Modelled from the spec: absolute value of a float payload (`sign = 0`). -/
def decAbs : DecVal → DecVal
  | .nan => .nan
  | .inf _ => .inf false
  | .fin q => .fin |q|

/-- Modelled from the spec: IEEE-style subtraction (`bfdec_sub` / `bf_sub`). -/
def decSub (a b : DecVal) : DecVal := decAdd a (decNeg b)

/-- Modelled from the spec: IEEE-style multiplication (`bfdec_mul` / `bf_mul`). -/
def decMul : DecVal → DecVal → DecVal
  | .nan, _ => .nan
  | _, .nan => .nan
  | .inf s1, .inf s2 => .inf (xor s1 s2)
  | .inf s1, .fin q => if q = 0 then .nan else .inf (xor s1 (decide (q < 0)))
  | .fin q, .inf s2 => if q = 0 then .nan else .inf (xor (decide (q < 0)) s2)
  | .fin q1, .fin q2 => .fin (q1 * q2)

/-- Modelled from the spec: IEEE-style division (`bfdec_div` / `bf_div`).
Division of a nonzero finite value by zero yields a signed infinity and is not
an error; `0/0` yields NaN.  This is the behaviour behind the spec's error
scenario "`1/0` → `Inf` (decimal, not an error)". -/
def decDiv : DecVal → DecVal → DecVal
  | .nan, _ => .nan
  | _, .nan => .nan
  | .inf _, .inf _ => .nan
  | .inf s1, .fin q => .inf (xor s1 (decide (q < 0)))
  | .fin _, .inf _ => .fin 0
  | .fin q1, .fin q2 =>
      if q2 = 0 then (if q1 = 0 then .nan else .inf (decide (q1 < 0)))
      else .fin (q1 / q2)

/-- Modelled from the spec: Euclidean remainder (`bfdec_rem` / `bf_rem` with
`BF_DIVREM_EUCLIDIAN`): nonnegative remainder `a - |b| * ⌊a / |b|⌋`. -/
def decRem : DecVal → DecVal → DecVal
  | .nan, _ => .nan
  | _, .nan => .nan
  | .inf _, _ => .nan
  | .fin _, .inf _ => .nan
  | .fin q1, .fin q2 =>
      if q2 = 0 then .nan else .fin (q1 - |q2| * (⌊q1 / |q2|⌋ : ℤ))

/-- Modelled from the spec: float equality (`bf_cmp_eq`); NaN is unordered. -/
def decCmpEq : DecVal → DecVal → Bool
  | .nan, _ => false
  | _, .nan => false
  | .inf s1, .inf s2 => s1 = s2
  | .inf _, .fin _ => false
  | .fin _, .inf _ => false
  | .fin q1, .fin q2 => q1 = q2

/-- Modelled from the spec: float strict order (`bf_cmp_lt`); NaN is unordered. -/
def decCmpLt : DecVal → DecVal → Bool
  | .nan, _ => false
  | _, .nan => false
  | .inf s1, .inf s2 => s1 && !s2
  | .inf s1, .fin _ => s1
  | .fin _, .inf s2 => !s2
  | .fin q1, .fin q2 => q1 < q2

/-- Modelled from the spec: float order (`bf_cmp_le`); NaN is unordered. -/
def decCmpLe (a b : DecVal) : Bool := decCmpLt a b || decCmpEq a b

/-- Truncation of a rational toward zero (`BF_RNDZ` integer rounding). -/
def ratTrunc (q : ℚ) : ℤ := if q < 0 then ⌈q⌉ else ⌊q⌋

/-- Rounding to the nearest integer, ties away from zero (`BF_RNDNA`). -/
def ratRoundNA (q : ℚ) : ℤ := if q < 0 then -⌊-q + 1/2⌋ else ⌊q + 1/2⌋

/-- Modelled from the spec: rounding of a float payload to an integral value
(`bfdec_rint` / `bf_rint`), with the mode from `get_op1_rnd_mode`. -/
def decRint (op : BCOP1Enum) : DecVal → DecVal
  | .nan => .nan
  | .inf s => .inf s
  | .fin q =>
      match op with
      | .TRUNC => .fin (ratTrunc q)
      | .FLOOR => .fin (⌊q⌋ : ℤ)
      | .CEIL => .fin (⌈q⌉ : ℤ)
      | _ => .fin (ratRoundNA q)

/-- Modelled from the spec: square root (`bfdec_sqrt` / `bf_sqrt`); negative
operands give NaN.  `Rat.sqrt` stands in for the rounded finite result. -/
def decSqrt : DecVal → DecVal
  | .nan => .nan
  | .inf s => if s then .nan else .inf false
  | .fin q => if q < 0 then .nan else .fin (Rat.sqrt q)

/-- Modelled from the spec: natural logarithm (`bf_log`): NaN on negative
operands, `-Inf` at zero, total otherwise. -/
def decLog : DecVal → DecVal
  | .nan => .nan
  | .inf s => if s then .nan else .inf false
  | .fin q => if q < 0 then .nan else if q = 0 then .inf true else .fin (transApprox1 q)

/-- Modelled from the spec: exponential (`bf_exp`). -/
def decExp : DecVal → DecVal
  | .nan => .nan
  | .inf s => if s then .fin 0 else .inf false
  | .fin q => .fin (transApprox1 q)

/-- Modelled from the spec: trigonometric primitives (`bf_sin` … `bf_atan`);
finite operands give finite approximations, infinite operands NaN. -/
def decTrig : DecVal → DecVal
  | .nan => .nan
  | .inf _ => .nan
  | .fin q => .fin (transApprox1 q)

/-- Modelled from the spec: two-argument arctangent (`bf_atan2`), total on
non-NaN operands. -/
def decAtan2 : DecVal → DecVal → DecVal
  | .nan, _ => .nan
  | _, .nan => .nan
  | .inf _, .inf _ => .fin 0
  | .inf _, .fin q => .fin (transApprox1 q)
  | .fin q, .inf _ => .fin (transApprox1 q)
  | .fin q1, .fin q2 => .fin (transApprox2 q1 q2)

/-- Modelled from the spec: float power (`bf_pow`), total. -/
def decPow : DecVal → DecVal → DecVal
  | .nan, _ => .nan
  | _, .nan => .nan
  | .inf _, .inf _ => .fin 0
  | .inf _, .fin q => .fin (transApprox1 q)
  | .fin q, .inf _ => .fin (transApprox1 q)
  | .fin q1, .fin q2 => .fin (transApprox2 q1 q2)

/-- The value union (`BCValueStruct`).  The reference count is a memory-safety
device with no effect on computed results and is not represented.  The kinds
involved in the claims are represented; `Polynomial`, `RationalFunction`,
`Tensor` and `Function` payloads do not occur in any claim, and power series
are modelled separately (`BCSeries` below) because only their dedicated
`ser_*` operations are claimed about.  The element type of a complex value is
its real scalar tag (the source stores a full type descriptor, but
`complex_new` only ever builds complex values over real scalar element
types, cf. `is_real_number`). -/
inductive BCValue where
  | VBool (b : Bool)
  | VInt (n : ℤ)
  | VFrac (num den : ℤ)
  | VDec (d : DecVal)
  | VFloat (f : DecVal)
  | VComplex (el : BCTypeEnum) (re im : BCValue)
  | VArray (tab : List BCValue)
  | VString (s : List Char)
  | VNull
  | VRange (start stop : Option ℤ)

open BCValue

/-- `cval_type`. -/
def cval_type : BCValue → BCTypeEnum
  | VBool _ => .BOOL
  | VInt _ => .INT
  | VFrac _ _ => .FRAC
  | VDec _ => .DECIMAL
  | VFloat _ => .FLOAT
  | VComplex _ _ _ => .COMPLEX
  | VArray _ => .ARRAY
  | VString _ => .STRING
  | VNull => .NULL
  | VRange _ _ => .RANGE

/-- Result of an operation: either a value or the `BC_EXCEPTION` sentinel paired
with the pending error slot contents. -/
inductive BCResult where
  | ok (v : BCValue)
  | err (e : BCError)

/-- `cval_type_error`. -/
def cval_type_error (msg : String) : BCResult := .err ⟨.TYPE, msg⟩

/-- `cval_range_error`. -/
def cval_range_error (msg : String) : BCResult := .err ⟨.RANGE, msg⟩

/-- Error propagation: callers receiving the sentinel return it unchanged (§7). -/
def BCResult.bind (r : BCResult) (f : BCValue → BCResult) : BCResult :=
  match r with
  | .ok v => f v
  | .err e => .err e

/-- `cbool_to_int`. -/
def cbool_to_int (b : Bool) : ℤ := if b then 1 else 0

/-- `to_cint`: convert to integer by truncation.  On a non-finite decimal or
binary float the source stores the non-integral bignum unchanged inside an
integer value; this situation is unreachable from the claims and is modelled
as integer zero. -/
def to_cint : BCValue → BCResult
  | VInt n => .ok (VInt n)
  | VBool b => .ok (VInt (cbool_to_int b))
  | VFrac num den =>
      -- cint_op2(num, den, BC_OP2_DIV): truncating division, den ≠ 0 for
      -- every constructed fraction
      if den = 0 then cval_range_error "division by zero"
      else .ok (VInt (Int.tdiv num den))
  | VDec d =>
      match d with
      | .fin q => .ok (VInt (ratTrunc q))
      | _ => .ok (VInt 0)
  | VFloat f =>
      match f with
      | .fin q => .ok (VInt (ratTrunc q))
      | _ => .ok (VInt 0)
  | _ => cval_type_error "cannot convert to integer"

/-- `cint_shl` for the shift counts used internally (`-1` in the binary power
loops): a shift by `k < 0` is an arithmetic right shift (`bf_mul_2exp`
followed by `bf_rint(BF_RNDD)`), i.e. a floor division by `2^-k`. -/
def cint_shl (a k : ℤ) : ℤ :=
  if k < 0 then Int.fdiv a (2 ^ (-k).toNat) else a * 2 ^ k.toNat

/-- One fuel-indexed step chain of `cint_gcd`'s Euclid loop
(`r = a mod b` with the Euclidean, nonnegative remainder; `a := b; b := r`).
The fuel only makes the structural recursion explicit; `cint_gcd` supplies
enough fuel for the loop to run to completion (see `cint_gcd_loop_eq`). -/
def cint_gcd_loop : ℕ → ℤ → ℤ → ℤ
  | 0, a, _ => a
  | fuel + 1, a, b => if b = 0 then a else cint_gcd_loop fuel b (Int.emod a b)

/-- `cint_gcd` on integer payloads. -/
def cint_gcd (a b : ℤ) : ℤ := cint_gcd_loop (b.natAbs + 1) a b

/-- `cint_op1` (only `NEG` and `ABS` are reachable; the source aborts on other
tags, which no caller triggers). -/
def cint_op1 (n : ℤ) (op : BCOP1Enum) : BCValue :=
  match op with
  | .NEG => VInt (-n)
  | .ABS => VInt |n|
  | _ => VInt n

/-- `cfrac_new2`: build a fraction value without any check. -/
def cfrac_new2 (num den : ℤ) : BCValue := VFrac num den

/-- `cfrac_new`: return an irreducible fraction with a positive denominator,
or a range error if the denominator is zero.  (In the source the `den == 0`
test uses `cval_cmp_eq_int`, the sign fix negates both parts, and the
reductions are `cint_op2(·, g, BC_OP2_DIV)`, i.e. exact truncating integer
divisions by `g = cint_gcd(num, den)`.) -/
def cfrac_new (num den : ℤ) : BCResult :=
  if den = 0 then cval_range_error "division by zero"
  else
    let p := if den < 0 then (-num, -den) else (num, den)
    let g := cint_gcd p.1 p.2
    if g = 1 then .ok (cfrac_new2 p.1 p.2)
    else .ok (cfrac_new2 (Int.tdiv p.1 g) (Int.tdiv p.2 g))

/-- `cint_op2`: both operands are converted through `to_cint` first, the
operation is then exact arbitrary-precision integer arithmetic
(`BF_PREC_INF`).  `BC_OP2_DIV` truncates (`BF_RNDZ`) and `BC_OP2_MOD` /
`BC_OP2_DIVREM` use the Euclidean (nonnegative) remainder. -/
def cint_op2 (v1 v2 : BCValue) (op : BCOP2Enum) : BCResult :=
  (to_cint v1).bind fun w1 =>
  (to_cint v2).bind fun w2 =>
  match w1, w2 with
  | VInt a, VInt b =>
      match op with
      | .ADD => .ok (VInt (a + b))
      | .SUB => .ok (VInt (a - b))
      | .MUL => .ok (VInt (a * b))
      | .DOT_MUL => .ok (VInt (a * b))
      | .DIV =>
          if b = 0 then cval_range_error "division by zero"
          else .ok (VInt (Int.tdiv a b))
      | .MOD =>
          if b = 0 then cval_range_error "division by zero"
          else .ok (VInt (Int.emod a b))
      | .POW =>
          if b < 0 then cval_range_error "power yields non integer result"
          else .ok (VInt (a ^ b.toNat))
      | .CMP_EQ => .ok (VBool (decide (a = b)))
      | .CMP_LT => .ok (VBool (decide (a < b)))
      | .CMP_LE => .ok (VBool (decide (a ≤ b)))
      | .OR => .ok (VInt (Int.lor a b))
      | .AND => .ok (VInt (Int.land a b))
      | .XOR => .ok (VInt (Int.xor a b))
      | .DIVREM =>
          if b = 0 then cval_range_error "division by zero"
          else .ok (VArray [VInt (Int.ediv a b), VInt (Int.emod a b)])
      | .FRAC_DIV => cfrac_new a b
      | .ATAN2 => cval_type_error "unsupported operation"
  | _, _ => cval_type_error "cannot convert to integer"

/-- `to_cfrac`: an integer or boolean is lifted to a fraction with
denominator 1, a fraction passes through unchanged. -/
def to_cfrac : BCValue → BCResult
  | VFrac num den => .ok (VFrac num den)
  | VBool b => .ok (cfrac_new2 (cbool_to_int b) 1)
  | VInt n => .ok (cfrac_new2 n 1)
  | _ => cval_type_error "integer or fraction expected"

/-- Rounding of the integer quotient `num/den` to the nearest integer, ties
away from zero, for a positive denominator (`BF_RNDNA` in `bf_divrem`). -/
def int_roundNA (num den : ℤ) : ℤ :=
  if num < 0 then -Int.fdiv (2 * (-num) + den) (2 * den)
  else Int.fdiv (2 * num + den) (2 * den)

/-- `cfrac_op1` on a fraction payload.  `TRUNC`/`FLOOR`/`CEIL`/`ROUND` return
the integer obtained by `bf_divrem(num, den)` with the rounding mode from
`get_op1_rnd_mode`; the integer formulas below are those roundings for the
positive denominator every constructed fraction has.  Other rounding tags
abort in the source and are unreachable through `cval_op1`. -/
def cfrac_op1 (num den : ℤ) (op : BCOP1Enum) : BCValue :=
  match op with
  | .NEG => cfrac_new2 (-num) den
  | .ABS => cfrac_new2 |num| den
  | .TRUNC => VInt (Int.tdiv num den)
  | .FLOOR => VInt (Int.fdiv num den)
  | .CEIL => VInt (-Int.fdiv (-num) den)
  | .ROUND => VInt (int_roundNA num den)
  | _ => VFrac num den

/-- `cfrac_op2`.  Both operands pass through `to_cfrac`; `BC_OP2_MOD` is
computed as `v1 - floor(v1 / v2) * v2` where the division, floor,
multiplication and subtraction re-enter the generic `cval_*` entry points and
hence (both operands being fractions) the fraction implementation itself;
those re-entries are inlined below.  The comparison cases compare
`num1*den2` with `den1*num2` using the integer comparison. -/
def cfrac_op2 (v1 v2 : BCValue) (op : BCOP2Enum) : BCResult :=
  (to_cfrac v1).bind fun w1 =>
  (to_cfrac v2).bind fun w2 =>
  match w1, w2 with
  | VFrac n1 d1, VFrac n2 d2 =>
      match op with
      | .ADD => cfrac_new (n1 * d2 + n2 * d1) (d1 * d2)
      | .SUB => cfrac_new (n1 * d2 - n2 * d1) (d1 * d2)
      | .MUL => cfrac_new (n1 * n2) (d1 * d2)
      | .DOT_MUL => cfrac_new (n1 * n2) (d1 * d2)
      | .DIV => cfrac_new (n1 * d2) (d1 * n2)
      | .FRAC_DIV => cfrac_new (n1 * d2) (d1 * n2)
      | .MOD =>
          -- q = cval_floor(cval_div(v1, v2)) : cfrac_op2 DIV then cfrac_op1 FLOOR
          (cfrac_new (n1 * d2) (d1 * n2)).bind fun q0 =>
          match q0 with
          | VFrac nq dq =>
              match cfrac_op1 nq dq .FLOOR with
              | VInt q =>
                  -- cval_mul(q, v2) : to_cfrac(q) = q//1, then the MUL case
                  (cfrac_new (q * n2) (1 * d2)).bind fun m =>
                  match m with
                  | VFrac nm dm =>
                      -- cval_sub(v1, q * v2) : the SUB case
                      cfrac_new (n1 * dm - nm * d1) (d1 * dm)
                  | _ => cval_type_error "unsupported operation"
              | _ => cval_type_error "unsupported operation"
          | _ => cval_type_error "unsupported operation"
      | .CMP_EQ => .ok (VBool (decide (n1 * d2 = d1 * n2)))
      | .CMP_LT => .ok (VBool (decide (n1 * d2 < d1 * n2)))
      | .CMP_LE => .ok (VBool (decide (n1 * d2 ≤ d1 * n2)))
      | _ => cval_type_error "unsupported operation"
  | _, _ => cval_type_error "integer or fraction expected"

/-- `to_dec1`: conversion to a decimal float.  An integer is read at the
context precision (rounding abstracted, see `DecVal`), a fraction is divided
out by `cdec_op2(num, den, BC_OP2_DIV)` (inlined: the exact decimal division
of the two integer images), a binary float converts only when `allow_float`
is set (the `Decimal` constructor), a decimal passes through. -/
def to_dec1 (v : BCValue) (allow_float : Bool) : BCResult :=
  match v with
  | VBool b => .ok (VDec (.fin (cbool_to_int b)))
  | VInt n => .ok (VDec (.fin n))
  | VDec d => .ok (VDec d)
  | VFrac num den => .ok (VDec (decDiv (.fin num) (.fin den)))
  | VFloat f => if allow_float then .ok (VDec f) else cval_type_error "cannot convert to decimal"
  | _ => cval_type_error "cannot convert to decimal"

/-- `to_dec`. -/
def to_dec (v : BCValue) : BCResult := to_dec1 v false

/-- `cdec_op2`: both operands through `to_dec` (a binary float operand is
rejected there — `Float` and `Decimal` never silently mix), then the decimal
library primitive; `POW` and `ATAN2` go through a binary float excursion
whose finite result is an approximation (`decPow` / `decAtan2`). -/
def cdec_op2 (v1 v2 : BCValue) (op : BCOP2Enum) : BCResult :=
  (to_dec v1).bind fun w1 =>
  (to_dec v2).bind fun w2 =>
  match w1, w2 with
  | VDec a, VDec b =>
      match op with
      | .ADD => .ok (VDec (decAdd a b))
      | .SUB => .ok (VDec (decSub a b))
      | .MUL => .ok (VDec (decMul a b))
      | .DOT_MUL => .ok (VDec (decMul a b))
      | .DIV => .ok (VDec (decDiv a b))
      | .MOD => .ok (VDec (decRem a b))
      | .POW => .ok (VDec (decPow a b))
      | .ATAN2 => .ok (VDec (decAtan2 a b))
      | .CMP_EQ => .ok (VBool (decCmpEq a b))
      | .CMP_LT => .ok (VBool (decCmpLt a b))
      | .CMP_LE => .ok (VBool (decCmpLe a b))
      | _ => cval_type_error "unsupported operation"
  | _, _ => cval_type_error "cannot convert to decimal"

/-- `cdec_op1` on a decimal payload.  `CONJ`/`RE`/`IM` are intercepted by
`cval_op1` before the dispatch and abort in the source if ever reached; the
model leaves the payload unchanged there. -/
def cdec_op1 (d : DecVal) (op : BCOP1Enum) : BCValue :=
  match op with
  | .NEG => VDec (decNeg d)
  | .ABS => VDec (decAbs d)
  | .TRUNC => VDec (decRint op d)
  | .FLOOR => VDec (decRint op d)
  | .CEIL => VDec (decRint op d)
  | .ROUND => VDec (decRint op d)
  | .SQRT => VDec (decSqrt d)
  | .EXP => VDec (decExp d)
  | .LOG => VDec (decLog d)
  | .SIN => VDec (decTrig d)
  | .COS => VDec (decTrig d)
  | .TAN => VDec (decTrig d)
  | .ASIN => VDec (decTrig d)
  | .ACOS => VDec (decTrig d)
  | .ATAN => VDec (decTrig d)
  | _ => VDec d

/-- `to_float1`: conversion to a binary float.  A decimal converts only when
`allow_dec` is set (the `Float` constructor) — this rejection is what makes a
`Float`/`Decimal` operand mix a type error.  (For a boolean the source
mistakenly allocates the temporary with `cdec_new`; the payload it then
computes with is the float image of the boolean, which is what the model
keeps.)  A fraction is divided out by `cfloat_op2(num, den, BC_OP2_DIV)`
(inlined as the exact division of the two float images). -/
def to_float1 (v : BCValue) (allow_dec : Bool) : BCResult :=
  match v with
  | VFloat f => .ok (VFloat f)
  | VBool b => .ok (VFloat (.fin (cbool_to_int b)))
  | VInt n => .ok (VFloat (.fin n))
  | VFrac num den => .ok (VFloat (decDiv (.fin num) (.fin den)))
  | VDec d => if allow_dec then .ok (VFloat d) else cval_type_error "cannot convert to float"
  | _ => cval_type_error "cannot convert to float"

/-- `to_float`. -/
def to_float (v : BCValue) : BCResult := to_float1 v false

/-- `cfloat_op2`: both operands through `to_float` (a decimal operand is
rejected there), then the binary float primitive at the context precision. -/
def cfloat_op2 (v1 v2 : BCValue) (op : BCOP2Enum) : BCResult :=
  (to_float v1).bind fun w1 =>
  (to_float v2).bind fun w2 =>
  match w1, w2 with
  | VFloat a, VFloat b =>
      match op with
      | .ADD => .ok (VFloat (decAdd a b))
      | .SUB => .ok (VFloat (decSub a b))
      | .MUL => .ok (VFloat (decMul a b))
      | .DOT_MUL => .ok (VFloat (decMul a b))
      | .DIV => .ok (VFloat (decDiv a b))
      | .MOD => .ok (VFloat (decRem a b))
      | .POW => .ok (VFloat (decPow a b))
      | .ATAN2 => .ok (VFloat (decAtan2 a b))
      | .CMP_EQ => .ok (VBool (decCmpEq a b))
      | .CMP_LT => .ok (VBool (decCmpLt a b))
      | .CMP_LE => .ok (VBool (decCmpLe a b))
      | _ => cval_type_error "unsupported operation"
  | _, _ => cval_type_error "cannot convert to float"

/-- `cfloat_op1` on a binary float payload (same structure as `cdec_op1`). -/
def cfloat_op1 (f : DecVal) (op : BCOP1Enum) : BCValue :=
  match op with
  | .NEG => VFloat (decNeg f)
  | .ABS => VFloat (decAbs f)
  | .TRUNC => VFloat (decRint op f)
  | .FLOOR => VFloat (decRint op f)
  | .CEIL => VFloat (decRint op f)
  | .ROUND => VFloat (decRint op f)
  | .SQRT => VFloat (decSqrt f)
  | .EXP => VFloat (decExp f)
  | .LOG => VFloat (decLog f)
  | .SIN => VFloat (decTrig f)
  | .COS => VFloat (decTrig f)
  | .TAN => VFloat (decTrig f)
  | .ASIN => VFloat (decTrig f)
  | .ACOS => VFloat (decTrig f)
  | .ATAN => VFloat (decTrig f)
  | _ => VFloat f

/-- The scalar prefix of `cval_op2`'s dispatch (its first four branches,
reached whenever both operand kinds are at most `FLOAT`).  It is split out
because the complex-number routines re-enter `cval_op2` on their scalar
components; `cval_op2` below extends it verbatim. -/
def cval_op2_scalar (v1 v2 : BCValue) (op : BCOP2Enum) : BCResult :=
  let max_type := ctypeMax (cval_type v1) (cval_type v2)
  if max_type = .INT ∨ max_type = .BOOL then
    if op = .DIV then cdec_op2 v1 v2 op
    else cint_op2 v1 v2 op
  else if max_type = .FRAC then cfrac_op2 v1 v2 op
  else if max_type = .DECIMAL then cdec_op2 v1 v2 op
  else if max_type = .FLOAT then cfloat_op2 v1 v2 op
  else cval_type_error "incompatible types"

/-- `cval_cmp_lt_int`: compare with an integer constant through the generic
comparison; an error (including "complex numbers are not comparable" and any
type error) yields `FALSE`.  The scalar dispatch suffices: for every operand
kind outside it the comparison is an error both here and in the source. -/
def cval_cmp_lt_int (v : BCValue) (b : ℤ) : Bool :=
  match cval_op2_scalar v (VInt b) .CMP_LT with
  | .ok (VBool r) => r
  | _ => false

/-- `cval_cmp_eq_int` (same error convention as `cval_cmp_lt_int`). -/
def cval_cmp_eq_int (v : BCValue) (b : ℤ) : Bool :=
  match cval_op2_scalar v (VInt b) .CMP_EQ with
  | .ok (VBool r) => r
  | _ => false

/-- `is_real_number`. -/
def is_real_number (t : BCTypeEnum) : Bool :=
  t = .INT ∨ t = .FRAC ∨ t = .DECIMAL ∨ t = .FLOAT

/-- `get_op2_type` for scalar (element-free) argument types, which is how all
claim-relevant call sites use it (`complex_new` and `ser_new2` call it with
`BC_OP2_ADD` on real scalar element types).  The recursion of the source into
`elem_type` concerns parametric operand types only and cannot fire on scalar
arguments; with scalar arguments that branch is the trailing type error. -/
def get_op2_type (t1 t2 : BCTypeEnum) (op : BCOP2Enum) : Except BCError BCTypeEnum :=
  if op = .CMP_EQ ∨ op = .CMP_LT ∨ op = .CMP_LE then .ok .BOOL
  else
    -- swap so that p.1 is the larger tag
    let p := if ctypeLt t1 t2 then (t2, t1) else (t1, t2)
    -- special cases
    if op = .DIV ∧ p.1 = .INT then .ok .DECIMAL
    else if op = .FRAC_DIV ∧ p.1 = .INT then .ok .FRAC
    else if op = .POW ∧ p.1 = .FRAC then .ok .DECIMAL
    else if op = .ATAN2 ∧ ctypeLe p.1 .FRAC then .ok .DECIMAL
    -- booleans are always promoted to int except in comparisons
    else if p.1 = .BOOL then .ok .INT
    -- same_type on scalar types is tag equality
    else if p.1 = p.2 then .ok p.1
    else if p.1 = .FLOAT ∧ p.2 = .DECIMAL then
      .error ⟨.TYPE, "float and decimal are not compatible"⟩
    else if ctypeLe p.1 .FLOAT then .ok p.1
    else .error ⟨.TYPE, "incompatible types"⟩

/-- `cval_convert` restricted to scalar target types; this is the form used by
`complex_new2` (whose element types are always real scalars) and by the unary
`RE`/`IM` shortcut.  The full `cval_convert` below extends it. -/
def cval_convert_scalar (v : BCValue) (target : BCTypeEnum) : BCResult :=
  if cval_type v = target then .ok v
  else
    match target with
    | .INT => to_cint v
    | .FRAC => to_cfrac v
    | .FLOAT => to_float1 v true
    | .DECIMAL => to_dec1 v true
    | _ => cval_type_error "cannot convert type"

/-- `complex_new2`: build a complex value over the element type `el`,
converting both components into `el`.  (The source stores the conversion
results unchecked; a conversion error is propagated here, and is in fact
unreachable because `el` comes from promoting the component types.) -/
def complex_new2 (re im : BCValue) (el : BCTypeEnum) : BCResult :=
  (cval_convert_scalar re el).bind fun r =>
  (cval_convert_scalar im el).bind fun i =>
  .ok (VComplex el r i)

/-- `complex_new`: both components must be real numbers; the element type is
their `BC_OP2_ADD` promotion.  A promotion failure is reported as
"incompatible types for complex data" (the source overwrites the pending
error slot with that message). -/
def complex_new (re im : BCValue) : BCResult :=
  if is_real_number (cval_type re) ∧ is_real_number (cval_type im) then
    match get_op2_type (cval_type re) (cval_type im) .ADD with
    | .ok el => complex_new2 re im el
    | .error _ => cval_type_error "incompatible types for complex data"
  else cval_type_error "incompatible types for complex data"

/-- `to_complex`. -/
def to_complex (v : BCValue) : BCResult :=
  match v with
  | VComplex el re im => .ok (VComplex el re im)
  | _ => complex_new v (VInt 0)

/-- `complex_norm2`: `re*re + im*im` through the generic scalar operations. -/
def complex_norm2 (v : BCValue) : BCResult :=
  (to_complex v).bind fun w =>
  match w with
  | VComplex _ re im =>
      (cval_op2_scalar re re .MUL).bind fun a =>
      (cval_op2_scalar im im .MUL).bind fun b =>
      cval_op2_scalar a b .ADD
  | _ => cval_type_error "incompatible types"

/-- `cval_op1`'s dispatch switch restricted to scalar operands (the complex
case is added in `cval_op1` itself); a boolean falls into the default branch
of the source's switch. -/
def cval_op1_dispatch_scalar (v : BCValue) (op : BCOP1Enum) : BCResult :=
  match v with
  | VInt n => .ok (cint_op1 n op)
  | VFrac num den => .ok (cfrac_op1 num den op)
  | VDec d => .ok (cdec_op1 d op)
  | VFloat f => .ok (cfloat_op1 f op)
  | _ => cval_type_error "unsupported type"

/-- Membership of `op` in the sqrt/exp/log/trig list of `cval_op1` that
promotes sub-decimal operands to decimal. -/
def op1_promotes_to_dec (op : BCOP1Enum) : Bool :=
  op = .SQRT ∨ op = .EXP ∨ op = .LOG ∨ op = .SIN ∨ op = .COS ∨ op = .TAN ∨
  op = .ASIN ∨ op = .ACOS ∨ op = .ATAN

/-- Body of `cval_op1`, parametrised by the dispatch switch so that the
scalar-only restriction used inside the complex routines and the full version
share the promotion and `CONJ`/`RE`/`IM` pre-handling verbatim. -/
def cval_op1_body (dispatch : BCValue → BCOP1Enum → BCResult)
    (v : BCValue) (op : BCOP1Enum) : BCResult :=
  if op1_promotes_to_dec op ∧ ctypeLt (cval_type v) .DECIMAL then
    (to_dec v).bind fun w => dispatch w op
  else if (op = .CONJ ∨ op = .RE ∨ op = .IM) ∧ ctypeLe (cval_type v) .FLOAT then
    if op = .IM then cval_convert_scalar (VInt 0) (cval_type v)
    else .ok v
  else dispatch v op

/-- `cval_op1` restricted to scalar operands. -/
def cval_op1_scalar (v : BCValue) (op : BCOP1Enum) : BCResult :=
  cval_op1_body cval_op1_dispatch_scalar v op

/-- `cval_atan2`: scalar dispatch only (decimal up to `CTYPE_DECIMAL`,
binary float at `CTYPE_FLOAT`, type error otherwise). -/
def cval_atan2 (v1 v2 : BCValue) : BCResult :=
  let max_type := ctypeMax (cval_type v1) (cval_type v2)
  if ctypeLe max_type .DECIMAL then cdec_op2 v1 v2 .ATAN2
  else if max_type = .FLOAT then cfloat_op2 v1 v2 .ATAN2
  else cval_type_error "incompatible types"

/-- `cval_sqrt` restricted to scalar operands, as re-entered by the complex
routines (`complex_op1 ABS`, `complex_sqrt`): a negative real operand is
lifted to a complex square root of its negation.  The recursion depth is at
most one because the negation of a negative scalar is never negative again
(lemma `cval_sqrt_scalar_aux_stable` below); the fuel argument only makes
this termination explicit, the fuel-0 fallback coincides with the
non-negative branch. -/
def cval_sqrt_scalar_aux : ℕ → BCValue → BCResult
  | 0, v => cval_op1_scalar v .SQRT
  | fuel + 1, v =>
      if ctypeLe (cval_type v) .FLOAT ∧ cval_cmp_lt_int v 0 then
        (cval_op1_scalar v .NEG).bind fun nv =>
        (cval_sqrt_scalar_aux fuel nv).bind fun s =>
        complex_new (VInt 0) s
      else cval_op1_scalar v .SQRT

/-- `cval_sqrt` on scalar operands. -/
def cval_sqrt_scalar (v : BCValue) : BCResult := cval_sqrt_scalar_aux 2 v

/-- `complex_op1 BC_OP1_ABS`: `cval_sqrt(complex_norm2(v1))`; the norm is a
scalar, so the scalar restriction of `cval_sqrt` applies. -/
def complex_abs (v : BCValue) : BCResult :=
  (complex_norm2 v).bind fun n => cval_sqrt_scalar n

/-- Componentwise unary cases of `complex_op1`
(`NEG`/`TRUNC`/`FLOOR`/`CEIL`/`ROUND`): `complex_new` of `cval_op1` of the
(scalar) components. -/
def complex_op1_comp (v : BCValue) (op : BCOP1Enum) : BCResult :=
  match v with
  | VComplex _ re im =>
      (cval_op1_scalar re op).bind fun r =>
      (cval_op1_scalar im op).bind fun i =>
      complex_new r i
  | _ => cval_type_error "unsupported type"

/-- `cval_neg` for the value kinds that can appear inside the complex
routines (scalars and complex values). -/
def cval_neg_pre (v : BCValue) : BCResult :=
  match v with
  | VComplex el re im => complex_op1_comp (VComplex el re im) .NEG
  | _ => cval_op1_scalar v .NEG

/-- `complex_muli`: multiply by `I`, i.e. `complex_new(-im, re)`. -/
def complex_muli (v : BCValue) : BCResult :=
  match v with
  | VComplex _ re im =>
      (cval_op1_scalar im .NEG).bind fun ni => complex_new ni re
  | _ => cval_type_error "unsupported type"

/-- `complex_inverse`: `(re/norm2, -(im/norm2))`; the component divisions go
through the generic scalar division (so a complex over integers inverts into
a complex over decimals). -/
def complex_inverse (v : BCValue) : BCResult :=
  (to_complex v).bind fun w =>
  match w with
  | VComplex _ re im =>
      (complex_norm2 w).bind fun c =>
      (cval_op2_scalar re c .DIV).bind fun x =>
      (cval_op2_scalar im c .DIV).bind fun y0 =>
      (cval_op1_scalar y0 .NEG).bind fun y =>
      complex_new x y
  | _ => cval_type_error "incompatible types"

/-- `complex_op2 BC_OP2_ADD` on two complex values. -/
def complex_add (a b : BCValue) : BCResult :=
  match a, b with
  | VComplex _ r1 i1, VComplex _ r2 i2 =>
      (cval_op2_scalar r1 r2 .ADD).bind fun r =>
      (cval_op2_scalar i1 i2 .ADD).bind fun i =>
      complex_new r i
  | _, _ => cval_type_error "incompatible types"

/-- `complex_op2 BC_OP2_SUB` on two complex values. -/
def complex_sub (a b : BCValue) : BCResult :=
  match a, b with
  | VComplex _ r1 i1, VComplex _ r2 i2 =>
      (cval_op2_scalar r1 r2 .SUB).bind fun r =>
      (cval_op2_scalar i1 i2 .SUB).bind fun i =>
      complex_new r i
  | _, _ => cval_type_error "incompatible types"

/-- `complex_op2 BC_OP2_MUL` on two complex values:
`(r1*r2 - i1*i2, r1*i2 + i1*r2)`. -/
def complex_mul (a b : BCValue) : BCResult :=
  match a, b with
  | VComplex _ r1 i1, VComplex _ r2 i2 =>
      (cval_op2_scalar r1 r2 .MUL).bind fun x1 =>
      (cval_op2_scalar i1 i2 .MUL).bind fun x2 =>
      (cval_op2_scalar x1 x2 .SUB).bind fun r =>
      (cval_op2_scalar r1 i2 .MUL).bind fun y1 =>
      (cval_op2_scalar i1 r2 .MUL).bind fun y2 =>
      (cval_op2_scalar y1 y2 .ADD).bind fun i =>
      complex_new r i
  | _, _ => cval_type_error "incompatible types"

/-- `to_complex_frac`: lift a complex-over-integer value to
complex-over-fraction. -/
def to_complex_frac (v : BCValue) : BCResult :=
  match v with
  | VComplex el re im =>
      if el = .FRAC then .ok (VComplex el re im)
      else if el ≠ .INT then cval_type_error "integer or fractional complex expected"
      else
        (to_cfrac re).bind fun r =>
        (to_cfrac im).bind fun i =>
        complex_new r i
  | _ => cval_type_error "integer or fractional complex expected"

/-- `complex_op2 BC_OP2_DIV` / `BC_OP2_FRAC_DIV` on two complex values: the
divisor of a fraction division (or of a division with a fractional dividend)
is lifted from integer to fraction components first, then
`v1 * complex_inverse(v2)`. -/
def complex_div (a b : BCValue) (op : BCOP2Enum) : BCResult :=
  match a, b with
  | VComplex el1 r1 i1, VComplex el2 r2 i2 =>
      let lifted : BCResult :=
        if el2 = .INT ∧ (op = .FRAC_DIV ∨ el1 = .FRAC) then
          to_complex_frac (VComplex el2 r2 i2)
        else .ok (VComplex el2 r2 i2)
      lifted.bind fun b2 =>
      (complex_inverse b2).bind fun binv =>
      complex_mul (VComplex el1 r1 i1) binv
  | _, _ => cval_type_error "incompatible types"

/-- `complex_op1 BC_OP1_EXP`: `exp(re) * (cos(im) + i sin(im))` through the
generic scalar operations. -/
def complex_exp (v : BCValue) : BCResult :=
  match v with
  | VComplex _ re im =>
      (cval_op1_scalar re .EXP).bind fun r =>
      (cval_op1_scalar im .COS).bind fun c =>
      (cval_op2_scalar c r .MUL).bind fun x =>
      (cval_op1_scalar im .SIN).bind fun s =>
      (cval_op2_scalar s r .MUL).bind fun y =>
      complex_new x y
  | _ => cval_type_error "unsupported type"

/-- `complex_op1 BC_OP1_LOG`: `complex_new(log |v|, atan2(im, re))`.  The
absolute value is never a negative scalar, so the negative-operand redirect
of `cval_log` cannot fire on it and the inner call reduces to the scalar
`cval_op1`. -/
def complex_log (v : BCValue) : BCResult :=
  match v with
  | VComplex el re im =>
      (cval_atan2 im re).bind fun arg =>
      (complex_abs (VComplex el re im)).bind fun r =>
      (cval_op1_scalar r .LOG).bind fun l =>
      complex_new l arg
  | _ => cval_type_error "unsupported type"

/-- `complex_sqrt`: principal branch,
`(sqrt((|v|+re)/2), ±sqrt((|v|-re)/2))` with the sign of `im`. -/
def complex_sqrt (v : BCValue) : BCResult :=
  (to_complex v).bind fun w =>
  match w with
  | VComplex el re im =>
      (complex_abs (VComplex el re im)).bind fun t =>
      (cval_op2_scalar t re .ADD).bind fun s1 =>
      (cval_op2_scalar s1 (VInt 2) .DIV).bind fun h1 =>
      (cval_sqrt_scalar h1).bind fun x =>
      (cval_op2_scalar t re .SUB).bind fun s2 =>
      (cval_op2_scalar s2 (VInt 2) .DIV).bind fun h2 =>
      (cval_sqrt_scalar h2).bind fun y0 =>
      (if cval_cmp_lt_int im 0 then cval_neg_pre y0 else .ok y0).bind fun y =>
      complex_new x y
  | _ => cval_type_error "incompatible types"

/-- `complex_op1 BC_OP1_SIN`: `(t - 1/t) / 2i` with `t = exp(i v)`. -/
def complex_sin (v : BCValue) : BCResult :=
  (complex_muli v).bind fun iv =>
  (complex_exp iv).bind fun t =>
  (complex_inverse t).bind fun tinv =>
  (complex_sub t tinv).bind fun num =>
  (complex_new (VInt 0) (VInt 2)).bind fun den =>
  complex_div num den .DIV

/-- `complex_op1 BC_OP1_COS`: `(t + 1/t) / 2` with `t = exp(i v)`; the
integer divisor is lifted to a complex value by the generic dispatch. -/
def complex_cos (v : BCValue) : BCResult :=
  (complex_muli v).bind fun iv =>
  (complex_exp iv).bind fun t =>
  (complex_inverse t).bind fun tinv =>
  (complex_add t tinv).bind fun num =>
  (to_complex (VInt 2)).bind fun den =>
  complex_div num den .DIV

/-- `complex_op1 BC_OP1_TAN`: `t2 = (t - 1/t)/(t + 1/t)`, result
`(t2.im, -t2.re)`. -/
def complex_tan (v : BCValue) : BCResult :=
  (complex_muli v).bind fun iv =>
  (complex_exp iv).bind fun t =>
  (complex_inverse t).bind fun t1 =>
  (complex_sub t t1).bind fun num =>
  (complex_add t t1).bind fun den =>
  (complex_div num den .DIV).bind fun t2 =>
  match t2 with
  | VComplex _ r2 i2 =>
      (cval_op1_scalar r2 .NEG).bind fun nr => complex_new i2 nr
  | _ => cval_type_error "unsupported type"

/-- `cval_cmp_eq2` on scalar components (used by the complex comparison). -/
def cval_cmp_eq2_scalar (a b : BCValue) : Bool :=
  match cval_op2_scalar a b .CMP_EQ with
  | .ok (VBool r) => r
  | _ => false

/-- `complex_op1`. -/
def complex_op1 (v : BCValue) (op : BCOP1Enum) : BCResult :=
  match op with
  | .NEG => complex_op1_comp v op
  | .TRUNC => complex_op1_comp v op
  | .FLOOR => complex_op1_comp v op
  | .CEIL => complex_op1_comp v op
  | .ROUND => complex_op1_comp v op
  | .ABS => complex_abs v
  | .CONJ =>
      match v with
      | VComplex _ re im =>
          (cval_op1_scalar im .NEG).bind fun ni => complex_new re ni
      | _ => cval_type_error "unsupported type"
  | .RE =>
      match v with
      | VComplex _ re _ => .ok re
      | _ => cval_type_error "unsupported type"
  | .IM =>
      match v with
      | VComplex _ _ im => .ok im
      | _ => cval_type_error "unsupported type"
  | .SQRT => complex_sqrt v
  | .EXP => complex_exp v
  | .LOG => complex_log v
  | .SIN => complex_sin v
  | .COS => complex_cos v
  | .TAN => complex_tan v
  | _ => cval_type_error "unsupported type"

/-- `complex_op2`: both operands lifted through `to_complex`, then the case
dispatch of the source. -/
def complex_op2 (v1 v2 : BCValue) (op : BCOP2Enum) : BCResult :=
  (to_complex v1).bind fun a =>
  (to_complex v2).bind fun b =>
  match op with
  | .ADD => complex_add a b
  | .SUB => complex_sub a b
  | .MUL => complex_mul a b
  | .DOT_MUL => complex_mul a b
  | .DIV => complex_div a b op
  | .FRAC_DIV => complex_div a b op
  | .POW =>
      -- cval_exp(cval_mul(cval_log(v1), v2))
      (complex_log a).bind fun l =>
      (complex_mul l b).bind fun m =>
      complex_exp m
  | .CMP_EQ =>
      match a, b with
      | VComplex _ r1 i1, VComplex _ r2 i2 =>
          .ok (VBool (cval_cmp_eq2_scalar r1 r2 && cval_cmp_eq2_scalar i1 i2))
      | _, _ => cval_type_error "incompatible types"
  | .CMP_LT => cval_type_error "complex numbers are not comparable"
  | .CMP_LE => cval_type_error "complex numbers are not comparable"
  | .DIVREM =>
      -- Gaussian integer Euclidean division
      match a, b with
      | VComplex el1 r1 i1, VComplex el2 r2 i2 =>
          if el1 ≠ .INT ∨ el2 ≠ .INT then
            cval_type_error "both complex must have integer components for divrem"
          else
            (complex_div (VComplex el1 r1 i1) (VComplex el2 r2 i2) .FRAC_DIV).bind fun q0 =>
            (complex_op1_comp q0 .ROUND).bind fun q =>
            (complex_mul (VComplex el2 r2 i2) q).bind fun m =>
            (complex_sub (VComplex el1 r1 i1) m).bind fun r =>
            .ok (VArray [q, r])
      | _, _ => cval_type_error "incompatible types"
  | _ => cval_type_error "unsupported operation"

/-- Type descriptor (`BCType`) of a value of the modelled universe: a tag
plus, for complex values, the scalar element tag. -/
inductive BCTypeDesc where
  | scalar (tag : BCTypeEnum)
  | complex (el : BCTypeEnum)
deriving DecidableEq, Repr

/-- The type descriptor of a value (`v->type`). -/
def cval_typedesc (v : BCValue) : BCTypeDesc :=
  match v with
  | VComplex el _ _ => .complex el
  | _ => .scalar (cval_type v)

/-- `cval_convert` for the target types representable in the modelled
universe; the initial `same_type` check returns the value unchanged, a target
kind without a conversion rule is the switch default "cannot convert type". -/
def cval_convert (v : BCValue) (t : BCTypeDesc) : BCResult :=
  if cval_typedesc v = t then .ok v
  else
    match t with
    | .scalar .INT => to_cint v
    | .scalar .FRAC => to_cfrac v
    | .scalar .FLOAT => to_float1 v true
    | .scalar .DECIMAL => to_dec1 v true
    | .complex el =>
        (to_complex v).bind fun w =>
        match w with
        | VComplex _ re im => complex_new2 re im el
        | _ => cval_type_error "cannot convert type"
    | _ => cval_type_error "cannot convert type"

/-- `cstring_concat`. -/
def cstring_concat (s1 s2 : List Char) : BCValue := VString (s1 ++ s2)

/-- `cval_op2`: the generic binary entry point.  Dispatch is by the maximum
operand kind; `/` between integers (or booleans) is decimal division, `//`
stays in `cint_op2` which ends in `cfrac_new`.  Polynomial, rational
function, series and tensor payloads are not part of the modelled value
universe (series have their own `ser_add`/`ser_mul` model below), so their
dispatch branches cannot fire here; `String + String` concatenates and every
remaining combination is the trailing type error. -/
def cval_op2 (v1 v2 : BCValue) (op : BCOP2Enum) : BCResult :=
  let max_type := ctypeMax (cval_type v1) (cval_type v2)
  if max_type = .INT ∨ max_type = .BOOL then
    if op = .DIV then cdec_op2 v1 v2 op
    else cint_op2 v1 v2 op
  else if max_type = .FRAC then cfrac_op2 v1 v2 op
  else if max_type = .DECIMAL then cdec_op2 v1 v2 op
  else if max_type = .FLOAT then cfloat_op2 v1 v2 op
  else if max_type = .COMPLEX then complex_op2 v1 v2 op
  else
    match v1, v2, op with
    | VString s1, VString s2, .ADD => .ok (cstring_concat s1 s2)
    | _, _, _ => cval_type_error "incompatible types"

/-- The dispatch switch of `cval_op1` over the modelled universe (scalar
kinds plus complex; a boolean and the remaining kinds fall into the default
"unsupported type"). -/
def cval_op1_dispatch (v : BCValue) (op : BCOP1Enum) : BCResult :=
  match v with
  | VInt n => .ok (cint_op1 n op)
  | VFrac num den => .ok (cfrac_op1 num den op)
  | VDec d => .ok (cdec_op1 d op)
  | VFloat f => .ok (cfloat_op1 f op)
  | VComplex el re im => complex_op1 (VComplex el re im) op
  | _ => cval_type_error "unsupported type"

/-- `cval_op1`: the generic unary entry point; sub-decimal operands of
sqrt/exp/log/trig are promoted to decimal first, `CONJ`/`RE`/`IM` on real
scalars short-circuit, then the kind dispatch. -/
def cval_op1 (v : BCValue) (op : BCOP1Enum) : BCResult :=
  cval_op1_body cval_op1_dispatch v op

/-- `cval_sqrt`: a negative real operand is redirected to
`complex_new(0, sqrt(-v))` ("for convenience, return a complex value").  As
in `cval_sqrt_scalar_aux` the fuel only makes the depth-one recursion
explicit. -/
def cval_sqrt_aux : ℕ → BCValue → BCResult
  | 0, v => cval_op1 v .SQRT
  | fuel + 1, v =>
      if ctypeLe (cval_type v) .FLOAT ∧ cval_cmp_lt_int v 0 then
        (cval_op1 v .NEG).bind fun nv =>
        (cval_sqrt_aux fuel nv).bind fun s =>
        complex_new (VInt 0) s
      else cval_op1 v .SQRT

/-- `cval_sqrt`. -/
def cval_sqrt (v : BCValue) : BCResult := cval_sqrt_aux 2 v

/-- `cval_log`: a negative real operand is promoted to complex first ("we
redirect to complex in case the argument is negative"). -/
def cval_log (v : BCValue) : BCResult :=
  if ctypeLe (cval_type v) .FLOAT ∧ cval_cmp_lt_int v 0 then
    (to_complex v).bind fun w => cval_op1 w .LOG
  else cval_op1 v .LOG

/-- `cval_inverse`: scalars (and, in the source, polynomials and rational
functions) become `1 / v` through the generic division; a complex value uses
`complex_inverse`; the remaining kinds of the modelled universe are the
trailing type error (tensors and series are outside the universe). -/
def cval_inverse (v : BCValue) : BCResult :=
  if ctypeLe (cval_type v) .FLOAT then cval_op2 (VInt 1) v .DIV
  else
    match v with
    | VComplex el re im => complex_inverse (VComplex el re im)
    | _ => cval_type_error "incompatible type"

/-- The binary-exponentiation loop of `generic_pow` (entered with `b ≥ 1`):
multiply `r` by `a` when the low bit of `b` is set, shift `b` right
arithmetically, square `a` and continue until `b` reaches zero.  The fuel
makes termination structural; `generic_pow` passes more fuel than the bit
length of `b`, so the fuel-0 fallback is unreachable. -/
def generic_pow_loop : ℕ → BCValue → BCValue → ℤ → BCResult
  | 0, r, _, _ => .ok r
  | fuel + 1, r, a, b =>
      let step : BCResult :=
        if Int.emod b 2 = 1 then cval_op2 r a .MUL else .ok r
      step.bind fun r1 =>
      let b1 := cint_shl b (-1)
      if cval_cmp_eq_int (VInt b1) 0 then .ok r1
      else
        (cval_op2 a a .MUL).bind fun a1 =>
        generic_pow_loop fuel r1 a1 b1

/-- `generic_pow`: `r` starts as the conversion of 1 into the base's type
(matrices and series have special starting values in the source; both kinds
are outside the modelled universe), a negative exponent inverts the base
first (propagating an inversion failure), then the binary power loop runs.
The exponent is an integer at every call site. -/
def generic_pow (a b_val : BCValue) : BCResult :=
  match b_val with
  | VInt b =>
      (cval_convert (VInt 1) (cval_typedesc a)).bind fun r0 =>
      if cval_cmp_eq_int (VInt b) 0 then .ok r0
      else if cval_cmp_lt_int (VInt b) 0 then
        match cval_inverse a with
        | .err e => .err e
        | .ok a1 => generic_pow_loop (b.natAbs + 1) r0 a1 (-b)
      else generic_pow_loop (b.natAbs + 1) r0 a b
  | _ => cval_type_error "incompatible types"

/-- `cval_pow`: integer bases with a negative integer exponent go to the
decimal power "for convenience"; decimal and float bases use their kind
power; any other base with an integer exponent uses `generic_pow` ("we do
not systematically handle complex ^ int as floating point numbers"); the
tensor⊗tensor and series special cases concern kinds outside the modelled
universe and cannot fire. -/
def cval_pow (v1 v2 : BCValue) : BCResult :=
  let max_type := ctypeMax (cval_type v1) (cval_type v2)
  if max_type = .INT then
    if cval_cmp_lt_int v2 0 then cdec_op2 v1 v2 .POW
    else cint_op2 v1 v2 .POW
  else if max_type = .DECIMAL then cdec_op2 v1 v2 .POW
  else if max_type = .FLOAT then cfloat_op2 v1 v2 .POW
  else if cval_type v2 = .INT then generic_pow v1 v2
  else if max_type = .COMPLEX then complex_op2 v1 v2 .POW
  else cval_type_error "incompatible types"

/-- The extended-Euclid loop of `bf_invmod` on the state `(u, v, c, a)`:
one iteration computes the Euclidean quotient/remainder `q, t` of `v` by `u`
and steps to `(t, u, a - q*c, c)`; the loop stops at `u = 0` and yields the
final `(v, a)`.  The Euclidean `bf_divrem` of the bignum contract (spec §4.4
and §6: nonnegative remainder) is `Int.ediv`/`Int.emod`.  `natAbs u` strictly
decreases, so `natAbs x + 1` fuel is exact (lemma `bf_invmod_loop_spec`
below). -/
def bf_invmod_loop : ℕ → ℤ → ℤ → ℤ → ℤ → ℤ × ℤ
  | 0, _, v, _, a => (v, a)
  | fuel + 1, u, v, c, a =>
      if u = 0 then (v, a)
      else bf_invmod_loop fuel (Int.emod v u) u (a - Int.ediv v u * c) c

/-- `bf_invmod`: 0 (with the inverse Euclidean-reduced modulo `y`) if OK,
-1 if not invertible — modelled as an option. -/
def bf_invmod (x y : ℤ) : Option ℤ :=
  let p := bf_invmod_loop (x.natAbs + 1) x y 1 0
  if p.1 = 1 then some (Int.emod p.2 y) else none

/-- `cint_invmod`: inverse modulo m; both arguments must be integers and the
modulus must be positive. -/
def cint_invmod (v1 v2 : BCValue) : BCResult :=
  if cval_type v1 ≠ .INT ∨ cval_type v2 ≠ .INT then
    cval_type_error "cannot convert to integer"
  else if cval_cmp_lt_int v2 1 then
    cval_range_error "the modulo must be positive"
  else
    match v1, v2 with
    | VInt x, VInt y =>
        match bf_invmod x y with
        | some r => .ok (VInt r)
        | none => cval_range_error "not invertible"
    | _, _ => cval_type_error "cannot convert to integer"

/-- `cint_to_int`: reject non-integers with a type error and integers outside
the signed 32-bit range with a range error (`bf_get_int32`). -/
def cint_to_int (v : BCValue) : Except BCError ℤ :=
  match v with
  | VInt n =>
      if n < -(2 ^ 31) ∨ 2 ^ 31 ≤ n then .error ⟨.RANGE, "integer is too large"⟩
      else .ok n
  | _ => .error ⟨.TYPE, "integer expected"⟩

/-- `cstring_len`: the number of code points; the model keeps strings as
their code point sequences, so this is the list length (the byte-level UTF-8
encoding is a representation detail below this model). -/
def cstring_len (s : List Char) : ℕ := s.length

/-- `cstring_slice`: the code points in `[start, end)` (`utf8_pos`
arithmetic abstracted to code point indices). -/
def cstring_slice (s : List Char) (start stop : ℕ) : BCValue :=
  VString ((s.drop start).take (stop - start))

/-- `clamp_int`. -/
def clamp_int (x lo hi : ℤ) : ℤ := max lo (min x hi)

/-- `cstring_getitem` with its two arguments (string, index-or-range): a
range slices with Python-style negative resolution and clamping, an integer
index resolves negative values by adding the length and errors out of
bounds. -/
def cstring_getitem (args : List BCValue) : BCResult :=
  match args with
  | [VString s, arg] =>
      let len : ℤ := cstring_len s
      match arg with
      | VRange start0 stop0 =>
          let start1 := match start0 with | none => 0 | some x => x
          let stop1 := match stop0 with | none => len | some x => x
          let start2 := if start1 < 0 then start1 + len else start1
          let stop2 := if stop1 < 0 then stop1 + len else stop1
          let start3 := if start2 < 0 then 0 else start2
          let start4 := clamp_int start3 0 len
          let stop3 := clamp_int stop2 0 len
          let stop4 := if stop3 < start4 then start4 else stop3
          .ok (cstring_slice s start4.toNat stop4.toNat)
      | _ =>
          match cint_to_int arg with
          | .error e => .err e
          | .ok idx0 =>
              let idx := if idx0 < 0 then idx0 + len else idx0
              if idx < 0 ∨ len ≤ idx then
                cval_range_error "array index out of bounds"
              else .ok (cstring_slice s idx.toNat (idx + 1).toNat)
  | [_, _] => cval_type_error "string expected"
  | _ => cval_type_error "strings have a single dimension"

/-- `BCResult` as an `Except`, for the series code below which produces
series rather than plain values. -/
def BCResult.toExcept : BCResult → Except BCError BCValue
  | .ok v => .ok v
  | .err e => .error e

/-- A power series value (`BCPoly` payload with its `emin` under a
`CTYPE_SER` type): element type descriptor, valuation and coefficients
`c_0 … c_{len-1}`.  Series are modelled as their own type because the claims
about them concern the dedicated `ser_add`/`ser_mul` entry points. -/
structure BCSeries where
  el : BCTypeDesc
  emin : ℤ
  tab : List BCValue

/-- `is_poly_elem_type`. -/
def is_poly_elem_type (t : BCTypeDesc) : Bool :=
  match t with
  | .scalar tag => tag = .INT ∨ tag = .FRAC ∨ tag = .DECIMAL ∨ tag = .FLOAT
  | .complex _ => true

/-- The outer tag of a type descriptor. -/
def tag_of_desc : BCTypeDesc → BCTypeEnum
  | .scalar t => t
  | .complex _ => .COMPLEX

/-- `get_op2_type` on type descriptors: identical to the scalar version, with
the parametric recursion of the source for a complex operand type (with one
complex side, the larger tag is `CTYPE_COMPLEX`, so none of the scalar
special cases can fire; `same_type` is structural equality; the recursion
runs on the element types, unwrapping the smaller side when it is complex
too). -/
def get_op2_type_desc (t1 t2 : BCTypeDesc) (op : BCOP2Enum) : Except BCError BCTypeDesc :=
  match t1, t2 with
  | .scalar s1, .scalar s2 => (get_op2_type s1 s2 op).map .scalar
  | _, _ =>
      if op = .CMP_EQ ∨ op = .CMP_LT ∨ op = .CMP_LE then .ok (.scalar .BOOL)
      else
        let p := if ctypeLt (tag_of_desc t1) (tag_of_desc t2) then (t2, t1) else (t1, t2)
        if p.1 = p.2 then .ok p.1
        else
          match p.1, p.2 with
          | .complex e1, .complex e2 => (get_op2_type e1 e2 op).map .complex
          | .complex e1, .scalar e2 => (get_op2_type e1 e2 op).map .complex
          | _, _ => .error ⟨.TYPE, "incompatible types"⟩

/-- `ser_new`: a series of `len` zero coefficients of the element type
(each cell is `cval_convert(0, elem_type)`). -/
def ser_new (el : BCTypeDesc) (len : ℕ) (emin : ℤ) : Except BCError BCSeries :=
  if ¬ is_poly_elem_type el then
    .error ⟨.TYPE, "only numeric types are allowed in series"⟩
  else
    match cval_convert (VInt 0) el with
    | .err e => .error e
    | .ok z => .ok ⟨el, emin, List.replicate len z⟩

/-- `ser_new2`: a zero series over the promoted element type. -/
def ser_new2 (t1 t2 : BCTypeDesc) (len : ℕ) (emin : ℤ) : Except BCError BCSeries :=
  match get_op2_type_desc t1 t2 .ADD with
  | .error e => .error e
  | .ok t => ser_new t len emin

/-- `get_emin` on a coefficient table: the number of leading coefficients
that compare equal to integer zero. -/
def ser_get_emin (tab : List BCValue) : ℕ :=
  (tab.takeWhile fun c => cval_cmp_eq_int c 0).length

/-- `ser_trim`: remove the leading zero coefficients, moving them into the
valuation. -/
def ser_trim (s : BCSeries) : BCSeries :=
  let i := ser_get_emin s.tab
  if i = 0 then s
  else ⟨s.el, s.emin + i, s.tab.drop i⟩

/-- Coefficient of exponent `idx` used by `ser_add`: the stored coefficient
when `idx` is inside the stored window, a zero of the result element type
otherwise. -/
def ser_add_coef (s : BCSeries) (rel : BCTypeDesc) (idx : ℤ) : BCResult :=
  let j := idx - s.emin
  if 0 ≤ j ∧ j < (s.tab.length : ℤ) then .ok (s.tab.getD j.toNat VNull)
  else cval_convert (VInt 0) rel

/-- Build the list `[f 0, …, f (n-1)]`, failing at the first error (the
ascending evaluation order of the source loops). -/
def buildN (f : ℕ → Except BCError BCValue) : ℕ → Except BCError (List BCValue)
  | 0 => .ok []
  | n + 1 =>
      match buildN f n with
      | .error e => .error e
      | .ok l =>
          match f n with
          | .error e => .error e
          | .ok c => .ok (l ++ [c])

/-- `ser_add` on two series operands, before the final `ser_trim`: the
valuation of the result is `min(emin1, emin2)` and its terms run strictly
below `d = min(emin1+len1, emin2+len2)`; each coefficient is the generic sum
of the (zero-padded) operand coefficients.  (The branches of the source for
a polynomial, scalar or rational-function second operand convert it first
and are outside this two-series entry point.) -/
def ser_add_raw (s1 s2 : BCSeries) : Except BCError BCSeries :=
  let d := min (s1.emin + s1.tab.length) (s2.emin + s2.tab.length)
  let emin := min s1.emin s2.emin
  let n := (d - emin).toNat
  match ser_new2 s1.el s2.el n emin with
  | .error e => .error e
  | .ok r =>
      match buildN
          (fun i =>
            ((ser_add_coef s1 r.el (emin + i)).bind fun c1 =>
             (ser_add_coef s2 r.el (emin + i)).bind fun c2 =>
             cval_op2 c1 c2 .ADD).toExcept)
          n with
      | .error e => .error e
      | .ok tab => .ok ⟨r.el, emin, tab⟩

/-- `ser_add` (two series operands): the raw sum followed by `ser_trim`. -/
def ser_add (s1 s2 : BCSeries) : Except BCError BCSeries :=
  match ser_add_raw s1 s2 with
  | .error e => .error e
  | .ok r => .ok (ser_trim r)

/-- Inner loop of `ser_mul`: for fixed `i`, add `p1[i] * p2[j]` into
`tab[i+j]` for each `j` of the list (ascending `List.range (n-i)`). -/
def ser_mul_jloop (c1 : BCValue) (p2 : List BCValue) (i : ℕ)
    (tab : List BCValue) : List ℕ → Except BCError (List BCValue)
  | [] => .ok tab
  | j :: rest =>
      match (cval_op2 c1 (p2.getD j VNull) .MUL).toExcept with
      | .error e => .error e
      | .ok prod =>
          match (cval_op2 (tab.getD (i + j) VNull) prod .ADD).toExcept with
          | .error e => .error e
          | .ok s => ser_mul_jloop c1 p2 i (tab.set (i + j) s) rest

/-- Outer loop of `ser_mul` over `i` (ascending `List.range n`). -/
def ser_mul_iloop (p1 p2 : List BCValue) (n : ℕ) :
    List BCValue → List ℕ → Except BCError (List BCValue)
  | tab, [] => .ok tab
  | tab, i :: rest =>
      match ser_mul_jloop (p1.getD i VNull) p2 i tab (List.range (n - i)) with
      | .error e => .error e
      | .ok tab1 => ser_mul_iloop p1 p2 n tab1 rest

/-- `ser_mul` on two series operands, before the final `ser_trim`: the
valuation of the result is `emin1 + emin2` and its length `min(len1, len2)`;
the coefficients are accumulated by the truncated convolution double loop
starting from the zero series of `ser_new2`.  (A non-series operand is
converted by `to_ser` in the source before this point.) -/
def ser_mul_raw (s1 s2 : BCSeries) : Except BCError BCSeries :=
  let emin := s1.emin + s2.emin
  let n := min s1.tab.length s2.tab.length
  match ser_new2 s1.el s2.el n emin with
  | .error e => .error e
  | .ok r =>
      match ser_mul_iloop s1.tab s2.tab n r.tab (List.range n) with
      | .error e => .error e
      | .ok tab => .ok ⟨r.el, emin, tab⟩

/-- `ser_mul` (two series operands): the raw product followed by `ser_trim`. -/
def ser_mul (s1 s2 : BCSeries) : Except BCError BCSeries :=
  match ser_mul_raw s1 s2 with
  | .error e => .error e
  | .ok r => .ok (ser_trim r)

/-! ### Helper lemmas about the integer primitives -/

theorem int_emod_eq (a b : ℤ) : Int.emod a b = a % b := rfl

theorem int_ediv_eq (a b : ℤ) : Int.ediv a b = a / b := rfl

theorem int_gcd_emod (a b : ℤ) : Int.gcd b (Int.emod a b) = Int.gcd a b := by
  rw [int_emod_eq]
  apply Nat.dvd_antisymm
  · have h1 : (↑(Int.gcd b (a % b)) : ℤ) ∣ a := by
      conv_rhs => rw [← Int.emod_add_ediv a b]
      exact dvd_add Int.gcd_dvd_right (Dvd.dvd.mul_right Int.gcd_dvd_left _)
    exact Int.natCast_dvd_natCast.mp (Int.dvd_gcd h1 Int.gcd_dvd_left)
  · have h2 : (↑(Int.gcd a b) : ℤ) ∣ a % b := by
      rw [Int.emod_def]
      exact dvd_sub Int.gcd_dvd_left (Dvd.dvd.mul_right Int.gcd_dvd_right _)
    exact Int.natCast_dvd_natCast.mp (Int.dvd_gcd Int.gcd_dvd_right h2)

theorem natAbs_emod_lt (a b : ℤ) (hb : b ≠ 0) : (Int.emod a b).natAbs < b.natAbs := by
  rw [int_emod_eq]
  have h0 : 0 ≤ a % b := Int.emod_nonneg a hb
  rcases lt_or_gt_of_ne hb with h | h
  · have hkey : a % b = a % -b := by
      have := Int.emod_neg a (-b)
      rw [neg_neg] at this
      exact this
    have h3 : a % -b < -b := Int.emod_lt_of_pos a (by omega)
    omega
  · have h3 : a % b < b := Int.emod_lt_of_pos a h
    omega

theorem cint_gcd_loop_eq : ∀ fuel (a b : ℤ), 0 < b → b.natAbs < fuel →
    cint_gcd_loop fuel a b = Int.gcd a b := by
  intro fuel
  induction fuel with
  | zero => intro a b _ h; omega
  | succ n ih =>
      intro a b hb h
      simp only [cint_gcd_loop]
      rw [if_neg (by omega)]
      by_cases hr : Int.emod a b = 0
      · have hdvd : b ∣ a := by
          rw [int_emod_eq] at hr
          exact Int.dvd_of_emod_eq_zero hr
        have hloop : cint_gcd_loop n b (Int.emod a b) = b := by
          rw [hr]
          cases n with
          | zero => rfl
          | succ m => simp [cint_gcd_loop]
        rw [hloop, Int.gcd_eq_right hdvd, Int.natAbs_of_nonneg (by omega)]
      · have hlt := natAbs_emod_lt a b (by omega)
        have hpos : 0 < Int.emod a b := by
          have h4 : 0 ≤ a % b := Int.emod_nonneg a (by omega : b ≠ 0)
          rw [int_emod_eq]
          rw [int_emod_eq] at hr
          omega
        rw [ih b (Int.emod a b) hpos (by omega), int_gcd_emod]

theorem cint_gcd_eq (a b : ℤ) (hb : 0 < b) : cint_gcd a b = Int.gcd a b :=
  cint_gcd_loop_eq _ a b hb (by omega)

theorem int_tdiv_of_dvd {g n : ℤ} (h : g ∣ n) : Int.tdiv n g = n / g := by
  rcases h with ⟨k, rfl⟩
  by_cases hg : g = 0
  · subst hg; simp [Int.tdiv]
  · rw [Int.mul_tdiv_cancel_left k hg, Int.mul_ediv_cancel_left k hg]

/-! ### The fraction invariant (claims C2, C5, C3) -/

/-- The invariant of every constructed fraction: positive denominator and
coprime parts (spec §3 and §8). -/
def validFrac (n d : ℤ) : Prop := 0 < d ∧ Int.gcd n d = 1

theorem cfrac_new_core (n0 d0 : ℤ) (hd0 : 0 < d0) :
    ∃ n' d', (if cint_gcd n0 d0 = 1 then BCResult.ok (cfrac_new2 n0 d0)
        else BCResult.ok (cfrac_new2 (Int.tdiv n0 (cint_gcd n0 d0)) (Int.tdiv d0 (cint_gcd n0 d0)))) =
        .ok (VFrac n' d') ∧ validFrac n' d' ∧
      ((n' : ℚ) / (d' : ℚ) = (n0 : ℚ) / (d0 : ℚ)) := by
  set g := cint_gcd n0 d0 with hgdef
  have hgcd : g = Int.gcd n0 d0 := cint_gcd_eq n0 d0 hd0
  by_cases hg : g = 1
  · refine ⟨n0, d0, by rw [if_pos hg]; rfl, ⟨hd0, ?_⟩, rfl⟩
    rw [hgcd] at hg
    exact_mod_cast hg
  · have hgpos : (0 : ℤ) < g := by
      rw [hgcd]
      exact_mod_cast Int.gcd_pos_of_ne_zero_right n0 (by omega)
    have hdvd_n : g ∣ n0 := by rw [hgcd]; exact Int.gcd_dvd_left
    have hdvd_d : g ∣ d0 := by rw [hgcd]; exact Int.gcd_dvd_right
    obtain ⟨k, hk⟩ := hdvd_n
    obtain ⟨m, hm⟩ := hdvd_d
    have hg0 : g ≠ 0 := by omega
    have hkdiv : n0 / g = k := by rw [hk, Int.mul_ediv_cancel_left k hg0]
    have hmdiv : d0 / g = m := by rw [hm, Int.mul_ediv_cancel_left m hg0]
    refine ⟨Int.tdiv n0 g, Int.tdiv d0 g,
      by rw [if_neg hg]; rfl, ⟨?_, ?_⟩, ?_⟩
    · rw [int_tdiv_of_dvd ⟨m, hm⟩, hmdiv]
      nlinarith [hm, hgpos, hd0]
    · rw [int_tdiv_of_dvd ⟨k, hk⟩, int_tdiv_of_dvd ⟨m, hm⟩, hgcd]
      exact Int.gcd_div_gcd_div_gcd (by rw [hgcd] at hgpos; exact_mod_cast hgpos)
    · have hgQ : ((g : ℤ) : ℚ) ≠ 0 := by exact_mod_cast hg0
      rw [int_tdiv_of_dvd ⟨k, hk⟩, int_tdiv_of_dvd ⟨m, hm⟩, hkdiv, hmdiv]
      conv_rhs => rw [hk, hm]
      rw [Int.cast_mul, Int.cast_mul, mul_div_mul_left _ _ hgQ]

/-- `cfrac_new` on a nonzero denominator returns a fraction satisfying the
invariant and representing the same rational number. -/
theorem cfrac_new_spec (n d : ℤ) (hd : d ≠ 0) :
    ∃ n' d', cfrac_new n d = .ok (VFrac n' d') ∧ validFrac n' d' ∧
      ((n' : ℚ) / (d' : ℚ) = (n : ℚ) / (d : ℚ)) := by
  by_cases hneg : d < 0
  · rcases cfrac_new_core (-n) (-d) (by omega) with ⟨n', d', heq, hval, hq⟩
    refine ⟨n', d', ?_, hval, ?_⟩
    · simp only [cfrac_new, if_neg hd, if_pos hneg]
      exact heq
    · rw [hq, Int.cast_neg, Int.cast_neg, neg_div_neg_eq]
  · rcases cfrac_new_core n d (by omega) with ⟨n', d', heq, hval, hq⟩
    refine ⟨n', d', ?_, hval, hq⟩
    simp only [cfrac_new, if_neg hd, if_neg hneg]
    exact heq

/-- Implication form of `cfrac_new_spec`: any successful `cfrac_new` result
is a fraction satisfying the invariant. -/
theorem cfrac_new_valid {n d : ℤ} {v : BCValue} (h : cfrac_new n d = .ok v) :
    ∃ n' d', v = VFrac n' d' ∧ validFrac n' d' := by
  by_cases hd : d = 0
  · subst hd
    simp [cfrac_new, cval_range_error] at h
  · rcases cfrac_new_spec n d hd with ⟨n', d', heq, hval, _⟩
    rw [heq] at h
    cases h
    exact ⟨n', d', rfl, hval⟩

/-- Value form of `cfrac_new_spec`. -/
theorem cfrac_new_val {n d n' d' : ℤ} (hd : d ≠ 0)
    (h : cfrac_new n d = .ok (VFrac n' d')) :
    validFrac n' d' ∧ (n' : ℚ) / (d' : ℚ) = (n : ℚ) / (d : ℚ) := by
  rcases cfrac_new_spec n d hd with ⟨n'', d'', heq, hval, hq⟩
  rw [heq] at h
  cases h
  exact ⟨hval, hq⟩

/-- `cfrac_new` with a zero denominator is the range error "division by
zero" (and in particular never yields a fraction). -/
theorem cfrac_new_zero_den (n : ℤ) : cfrac_new n 0 = .err ⟨.RANGE, "division by zero"⟩ := rfl

theorem to_cfrac_shape (v : BCValue) :
    (∃ a b, to_cfrac v = .ok (VFrac a b)) ∨ (∃ e, to_cfrac v = .err e) := by
  cases v <;> simp [to_cfrac, cfrac_new2, cval_type_error]

theorem cfrac_new_frac_valid {x y n d : ℤ} (h : cfrac_new x y = .ok (VFrac n d)) :
    validFrac n d := by
  rcases cfrac_new_valid h with ⟨n', d', heq, hval⟩
  cases heq
  exact hval

/-- Every fraction coming out of `cfrac_op2` satisfies the invariant: each
arithmetic case (including the floor-mod composition) funnels its result
through `cfrac_new`. -/
theorem cfrac_op2_frac_valid (v1 v2 : BCValue) (op : BCOP2Enum) (n d : ℤ)
    (h : cfrac_op2 v1 v2 op = .ok (VFrac n d)) : validFrac n d := by
  rcases to_cfrac_shape v1 with ⟨a1, b1, h1⟩ | ⟨e, h1⟩
  · rcases to_cfrac_shape v2 with ⟨a2, b2, h2⟩ | ⟨e, h2⟩
    · simp only [cfrac_op2, h1, h2, BCResult.bind] at h
      cases op
      case ADD => exact cfrac_new_frac_valid h
      case SUB => exact cfrac_new_frac_valid h
      case MUL => exact cfrac_new_frac_valid h
      case DOT_MUL => exact cfrac_new_frac_valid h
      case DIV => exact cfrac_new_frac_valid h
      case FRAC_DIV => exact cfrac_new_frac_valid h
      case MOD =>
        rcases hq : cfrac_new (a1 * b2) (b1 * a2) with v | e
        · rcases cfrac_new_valid hq with ⟨nq, dq, rfl, _⟩
          rw [hq] at h
          simp only [BCResult.bind, cfrac_op1] at h
          rcases hm : cfrac_new (Int.fdiv nq dq * a2) (1 * b2) with vm | e
          · rcases cfrac_new_valid hm with ⟨nm, dm, rfl, _⟩
            rw [hm] at h
            simp only [BCResult.bind] at h
            exact cfrac_new_frac_valid h
          · rw [hm] at h
            simp only [BCResult.bind] at h
            cases h
        · rw [hq] at h
          simp only [BCResult.bind] at h
          cases h
      all_goals simp_all [cval_type_error]
    · simp [cfrac_op2, h1, h2, BCResult.bind] at h
  · simp [cfrac_op2, h1, BCResult.bind] at h

/-- C2: every Fraction value produced by the fraction constructor
(`cfrac_new`) or by any binary fraction operation (`cfrac_op2`) has a
positive denominator and coprime numerator/denominator, and a zero
denominator never constructs a fraction — it raises the range error
"division by zero". -/
theorem C2_fraction_invariant :
    (∀ (n d : ℤ) (v : BCValue), cfrac_new n d = .ok v →
        ∃ n' d', v = VFrac n' d' ∧ 0 < d' ∧ Int.gcd n' d' = 1) ∧
    (∀ n : ℤ, cfrac_new n 0 = .err ⟨.RANGE, "division by zero"⟩) ∧
    (∀ (v1 v2 : BCValue) (op : BCOP2Enum) (n d : ℤ),
        cfrac_op2 v1 v2 op = .ok (VFrac n d) → 0 < d ∧ Int.gcd n d = 1) := by
  refine ⟨?_, cfrac_new_zero_den, ?_⟩
  · intro n d v h
    rcases cfrac_new_valid h with ⟨n', d', rfl, hv⟩
    exact ⟨n', d', rfl, hv.1, hv.2⟩
  · intro v1 v2 op n d h
    exact cfrac_op2_frac_valid v1 v2 op n d h

/-- C2, instantiated: `cfrac_new 2 4` reduces to `1//2`, `cfrac_new 5 0` is
the division-by-zero range error, and `5//6 * 1//2 = 5//12` is reduced with
a positive denominator. -/
theorem C2_fraction_invariant_witness :
    (∃ n' d', (VFrac 1 2 : BCValue) = VFrac n' d' ∧ 0 < d' ∧ Int.gcd n' d' = 1) ∧
    cfrac_new 5 0 = .err ⟨.RANGE, "division by zero"⟩ ∧
    ((0 : ℤ) < 12 ∧ Int.gcd 5 12 = 1) := by
  refine ⟨?_, ?_, ?_⟩
  · exact C2_fraction_invariant.1 2 4 (VFrac 1 2) (by rfl)
  · exact C2_fraction_invariant.2.1 5
  · exact C2_fraction_invariant.2.2 (VFrac 5 6) (VFrac 1 2) .MUL 5 12 (by rfl)

/-! ### C1: division kinds between integers and booleans -/

/-- C1, counterexample to the claim as stated: the original claim says the
`//` operator returns a Fraction for ANY two Integer operands, but `1 // 0`
is the range error "division by zero" (the `cfrac_new` zero-denominator
check), not a fraction. -/
theorem C1_int_div_kinds_counterexample :
    cval_op2 (VInt 1) (VInt 0) .FRAC_DIV = .err ⟨.RANGE, "division by zero"⟩ := rfl

/-- C1 (amended): for any two Integer-or-Bool operands, `/` always returns a
Decimal value (so in particular `1/0` succeeds and yields the decimal `Inf`,
stated as the closing conjunct), while `//` returns a Fraction exactly when
the divisor is nonzero and the range error "division by zero" when it is
zero. -/
theorem C1_int_div_kinds :
    (∀ v1 v2 : BCValue,
        (cval_type v1 = .INT ∨ cval_type v1 = .BOOL) →
        (cval_type v2 = .INT ∨ cval_type v2 = .BOOL) →
        (∃ d, cval_op2 v1 v2 .DIV = .ok (VDec d)) ∧
        ∀ b : ℤ, to_cint v2 = .ok (VInt b) →
          (b = 0 → cval_op2 v1 v2 .FRAC_DIV = .err ⟨.RANGE, "division by zero"⟩) ∧
          (b ≠ 0 → ∃ n d, cval_op2 v1 v2 .FRAC_DIV = .ok (VFrac n d))) ∧
    cval_op2 (VInt 1) (VInt 0) .DIV = .ok (VDec (.inf false)) := by
  have shape : ∀ v : BCValue, cval_type v = .INT ∨ cval_type v = .BOOL →
      (∃ a : ℤ, v = VInt a) ∨ ∃ bb : Bool, v = VBool bb := by
    intro v hv
    cases v <;>
      first
        | exact .inl ⟨_, rfl⟩
        | exact .inr ⟨_, rfl⟩
        | simp [cval_type] at hv
  have core : ∀ (v1 v2 : BCValue) (a b : ℤ),
      to_cint v1 = .ok (VInt a) → to_cint v2 = .ok (VInt b) →
      cval_op2 v1 v2 .FRAC_DIV = cfrac_new a b →
      ∀ b0 : ℤ, to_cint v2 = .ok (VInt b0) →
        (b0 = 0 → cval_op2 v1 v2 .FRAC_DIV = .err ⟨.RANGE, "division by zero"⟩) ∧
        (b0 ≠ 0 → ∃ n d, cval_op2 v1 v2 .FRAC_DIV = .ok (VFrac n d)) := by
    intro v1 v2 a b _ hb hred b0 hb0
    rw [hb] at hb0
    have hbb : b0 = b := by
      cases hb0
      rfl
    subst hbb
    constructor
    · intro hz
      subst hz
      rw [hred]
      exact cfrac_new_zero_den a
    · intro hnz
      rcases cfrac_new_spec a b0 hnz with ⟨n', d', heq, _, _⟩
      exact ⟨n', d', by rw [hred]; exact heq⟩
  constructor
  · intro v1 v2 h1 h2
    rcases shape v1 h1 with ⟨a, rfl⟩ | ⟨aa, rfl⟩ <;>
      rcases shape v2 h2 with ⟨b, rfl⟩ | ⟨bb, rfl⟩
    · exact ⟨⟨_, rfl⟩, core _ _ a b rfl rfl rfl⟩
    · exact ⟨⟨_, rfl⟩, core _ _ a (cbool_to_int bb) rfl rfl rfl⟩
    · exact ⟨⟨_, rfl⟩, core _ _ (cbool_to_int aa) b rfl rfl rfl⟩
    · exact ⟨⟨_, rfl⟩, core _ _ (cbool_to_int aa) (cbool_to_int bb) rfl rfl rfl⟩
  · rfl

/-- C1, instantiated: `7 / 2` is a decimal, `7 // 2` is a fraction, and
`7 // 0` is the division-by-zero range error. -/
theorem C1_int_div_kinds_witness :
    (∃ d, cval_op2 (VInt 7) (VInt 2) .DIV = .ok (VDec d)) ∧
    (∃ n d, cval_op2 (VInt 7) (VInt 2) .FRAC_DIV = .ok (VFrac n d)) ∧
    cval_op2 (VInt 7) (VInt 0) .FRAC_DIV = .err ⟨.RANGE, "division by zero"⟩ := by
  refine ⟨?_, ?_, ?_⟩
  · exact (C1_int_div_kinds.1 (VInt 7) (VInt 2) (.inl rfl) (.inl rfl)).1
  · exact ((C1_int_div_kinds.1 (VInt 7) (VInt 2) (.inl rfl) (.inl rfl)).2 2 rfl).2 (by decide)
  · exact ((C1_int_div_kinds.1 (VInt 7) (VInt 0) (.inl rfl) (.inl rfl)).2 0 rfl).1 rfl

/-! ### C3: fraction to an integer power -/

/-- The generic multiplication of two fractions lands in `cfrac_new` of the
cross products; with nonzero denominators it yields a fraction with a
positive denominator. -/
theorem cval_mul_frac (n1 d1 n2 d2 : ℤ) (h1 : 0 < d1) (h2 : 0 < d2) :
    ∃ n d, cval_op2 (VFrac n1 d1) (VFrac n2 d2) .MUL = .ok (VFrac n d) ∧ 0 < d := by
  rcases cfrac_new_spec (n1 * n2) (d1 * d2) (mul_pos h1 h2).ne' with
    ⟨n', d', heq, ⟨hd', _⟩, _⟩
  exact ⟨n', d', heq, hd'⟩

/-- The binary power loop keeps a fraction state: starting from fraction
values with positive denominators it returns a fraction with a positive
denominator, for every fuel and every exponent. -/
theorem generic_pow_loop_frac : ∀ (fuel : ℕ) (nr dr na2 da2 b : ℤ),
    0 < dr → 0 < da2 →
    ∃ n d, generic_pow_loop fuel (VFrac nr dr) (VFrac na2 da2) b =
      .ok (VFrac n d) ∧ 0 < d := by
  intro fuel
  induction fuel with
  | zero => intro nr dr _ _ _ hdr _; exact ⟨nr, dr, rfl, hdr⟩
  | succ m ih =>
      intro nr dr na2 da2 b hdr hda
      simp only [generic_pow_loop]
      by_cases hodd : Int.emod b 2 = 1
      · rw [if_pos hodd]
        rcases cval_mul_frac nr dr na2 da2 hdr hda with ⟨n1, d1, hmul, hd1⟩
        rw [hmul]
        simp only [BCResult.bind]
        by_cases hstop : cval_cmp_eq_int (VInt (cint_shl b (-1))) 0 = true
        · rw [if_pos hstop]
          exact ⟨n1, d1, rfl, hd1⟩
        · rw [if_neg hstop]
          rcases cval_mul_frac na2 da2 na2 da2 hda hda with ⟨n2, d2, hmul2, hd2⟩
          rw [hmul2]
          simp only [BCResult.bind]
          exact ih n1 d1 n2 d2 (cint_shl b (-1)) hd1 hd2
      · rw [if_neg hodd]
        simp only [BCResult.bind]
        by_cases hstop : cval_cmp_eq_int (VInt (cint_shl b (-1))) 0 = true
        · rw [if_pos hstop]
          exact ⟨nr, dr, rfl, hdr⟩
        · rw [if_neg hstop]
          rcases cval_mul_frac na2 da2 na2 da2 hda hda with ⟨n2, d2, hmul2, hd2⟩
          rw [hmul2]
          simp only [BCResult.bind]
          exact ih nr dr n2 d2 (cint_shl b (-1)) hdr hd2

/-- C3, counterexample to the claim as stated: the claim says a Fraction base
with a negative Integer exponent may produce a Decimal, but `(3//5) ^ (-2)`
stays an exact fraction, `25//9`. -/
theorem C3_frac_pow_counterexample :
    cval_pow (VFrac 3 5) (VInt (-2)) = .ok (VFrac 25 9) := rfl

/-- C3 (amended): a Fraction base raised to a negative Integer exponent never
produces a Decimal.  `cval_pow` routes it to `generic_pow`, which inverts the
base (the exact fraction `den/num`, a range error when the numerator is zero)
and squares/multiplies inside the fraction kind, so the result is a Fraction
with positive denominator whenever the numerator is nonzero. -/
theorem C3_frac_pow_stays_frac (na da b : ℤ) (hb : b < 0) :
    (na ≠ 0 → ∃ n d, cval_pow (VFrac na da) (VInt b) = .ok (VFrac n d) ∧ 0 < d) ∧
    (na = 0 → cval_pow (VFrac na da) (VInt b) = .err ⟨.RANGE, "division by zero"⟩) ∧
    (∀ dv : DecVal, cval_pow (VFrac na da) (VInt b) ≠ .ok (VDec dv)) := by
  have hEq0 : cval_cmp_eq_int (VInt b) 0 = false := by
    show decide (b = 0) = false
    exact decide_eq_false (by omega)
  have hLt : cval_cmp_lt_int (VInt b) 0 = true := by
    show decide (b < 0) = true
    exact decide_eq_true hb
  have hred : cval_pow (VFrac na da) (VInt b) =
      match cval_inverse (VFrac na da) with
      | .err e => .err e
      | .ok a1 => generic_pow_loop (b.natAbs + 1) (VFrac 1 1) a1 (-b) := by
    show (if cval_cmp_eq_int (VInt b) 0 = true then BCResult.ok (VFrac 1 1)
        else if cval_cmp_lt_int (VInt b) 0 = true then
          match cval_inverse (VFrac na da) with
          | .err e => .err e
          | .ok a1 => generic_pow_loop (b.natAbs + 1) (VFrac 1 1) a1 (-b)
        else generic_pow_loop (b.natAbs + 1) (VFrac 1 1) (VFrac na da) b) = _
    rw [hEq0, hLt]
    simp
  have hok : na ≠ 0 → ∃ n d, cval_pow (VFrac na da) (VInt b) = .ok (VFrac n d) ∧ 0 < d := by
    intro hna
    rcases cfrac_new_spec (1 * da) (1 * na) (by simpa using hna) with
      ⟨ni, di, hinveq, ⟨hdi, _⟩, _⟩
    have hinv : cval_inverse (VFrac na da) = .ok (VFrac ni di) := hinveq
    rcases generic_pow_loop_frac (b.natAbs + 1) 1 1 ni di (-b) one_pos hdi with
      ⟨n, d, hloop, hd⟩
    refine ⟨n, d, ?_, hd⟩
    rw [hred, hinv]
    exact hloop
  have herr : na = 0 → cval_pow (VFrac na da) (VInt b) = .err ⟨.RANGE, "division by zero"⟩ := by
    intro hna
    subst hna
    have hinv : cval_inverse (VFrac 0 da) = .err ⟨.RANGE, "division by zero"⟩ := rfl
    rw [hred, hinv]
  refine ⟨hok, herr, ?_⟩
  intro dv hcontra
  by_cases hna : na = 0
  · rw [herr hna] at hcontra
    cases hcontra
  · rcases hok hna with ⟨n, d, heq, _⟩
    rw [heq] at hcontra
    cases hcontra

/-- C3, instantiated: `(3//5) ^ (-2)` is a fraction with positive
denominator and `(0//1) ^ (-2)` is the division-by-zero range error. -/
theorem C3_frac_pow_stays_frac_witness :
    (∃ n d, cval_pow (VFrac 3 5) (VInt (-2)) = .ok (VFrac n d) ∧ (0 : ℤ) < d) ∧
    cval_pow (VFrac 0 1) (VInt (-2)) = .err ⟨.RANGE, "division by zero"⟩ := by
  constructor
  · exact (C3_frac_pow_stays_frac 3 5 (-2) (by decide)).1 (by decide)
  · exact (C3_frac_pow_stays_frac 0 1 (-2) (by decide)).2.1 rfl

/-! ### C5: fraction mod uses floor-division semantics -/

theorem floor_int_div_rat (a b : ℤ) (hb : 0 < b) : ⌊(a : ℚ) / (b : ℚ)⌋ = a / b := by
  have h1 : ((b.toNat : ℕ) : ℚ) = (b : ℚ) := by exact_mod_cast Int.toNat_of_nonneg hb.le
  rw [← h1, Rat.floor_intCast_div_natCast a b.toNat, Int.toNat_of_nonneg hb.le]

theorem fdiv_floor_rat (a b : ℤ) (hb : 0 < b) : Int.fdiv a b = ⌊(a : ℚ) / (b : ℚ)⌋ :=
  (Int.fdiv_eq_ediv a hb.le).trans (floor_int_div_rat a b hb).symm

/-- C5: for fractions `a = n1/d1` and `b = n2/d2` with `b ≠ 0`, the generic
`mod` computes `a - floor(a/b) * b`: the result is a fraction whose value is
exactly that, so the remainder is in `[0, b)` when `b > 0` and in `(b, 0]`
when `b < 0` — it takes the sign of `b`, not a Euclidean convention. -/
theorem C5_frac_mod_floor (n1 d1 n2 d2 : ℤ) (hd1 : 0 < d1) (hd2 : 0 < d2)
    (hn2 : n2 ≠ 0) :
    ∃ n d, cval_op2 (VFrac n1 d1) (VFrac n2 d2) .MOD = .ok (VFrac n d) ∧ 0 < d ∧
      (n : ℚ) / (d : ℚ) = (n1 : ℚ) / (d1 : ℚ) -
        ⌊((n1 : ℚ) / (d1 : ℚ)) / ((n2 : ℚ) / (d2 : ℚ))⌋ * ((n2 : ℚ) / (d2 : ℚ)) ∧
      (0 < (n2 : ℚ) / (d2 : ℚ) →
        0 ≤ (n : ℚ) / (d : ℚ) ∧ (n : ℚ) / (d : ℚ) < (n2 : ℚ) / (d2 : ℚ)) ∧
      ((n2 : ℚ) / (d2 : ℚ) < 0 →
        (n2 : ℚ) / (d2 : ℚ) < (n : ℚ) / (d : ℚ) ∧ (n : ℚ) / (d : ℚ) ≤ 0) := by
  have hd1Q : (d1 : ℚ) ≠ 0 := Int.cast_ne_zero.mpr hd1.ne'
  have hd2Q : (d2 : ℚ) ≠ 0 := Int.cast_ne_zero.mpr hd2.ne'
  have hn2Q : (n2 : ℚ) ≠ 0 := Int.cast_ne_zero.mpr hn2
  obtain ⟨nq, dq, hq0, ⟨hdq, _⟩, hqval⟩ :=
    cfrac_new_spec (n1 * d2) (d1 * n2) (mul_ne_zero hd1.ne' hn2)
  obtain ⟨nm, dm, hm, ⟨hdm, _⟩, hmval⟩ :=
    cfrac_new_spec (Int.fdiv nq dq * n2) (1 * d2) (by simpa using hd2.ne')
  obtain ⟨n, d, hr, ⟨hd, _⟩, hrval⟩ :=
    cfrac_new_spec (n1 * dm - nm * d1) (d1 * dm) (mul_ne_zero hd1.ne' hdm.ne')
  have hdmQ : (dm : ℚ) ≠ 0 := Int.cast_ne_zero.mpr hdm.ne'
  have hcomp : cval_op2 (VFrac n1 d1) (VFrac n2 d2) .MOD = .ok (VFrac n d) := by
    have hred : cval_op2 (VFrac n1 d1) (VFrac n2 d2) .MOD =
        (cfrac_new (n1 * d2) (d1 * n2)).bind fun q0 =>
          match q0 with
          | VFrac nq' dq' =>
              match cfrac_op1 nq' dq' .FLOOR with
              | VInt q' =>
                  (cfrac_new (q' * n2) (1 * d2)).bind fun m =>
                  match m with
                  | VFrac nm' dm' => cfrac_new (n1 * dm' - nm' * d1) (d1 * dm')
                  | _ => cval_type_error "unsupported operation"
              | _ => cval_type_error "unsupported operation"
          | _ => cval_type_error "unsupported operation" := rfl
    rw [hred, hq0]
    simp only [BCResult.bind, cfrac_op1]
    rw [hm]
    simp only [BCResult.bind]
    exact hr
  have hABq : ((n1 : ℚ) / (d1 : ℚ)) / ((n2 : ℚ) / (d2 : ℚ)) = (nq : ℚ) / (dq : ℚ) := by
    rw [hqval]
    push_cast
    field_simp
  have hq_floor : Int.fdiv nq dq =
      ⌊((n1 : ℚ) / (d1 : ℚ)) / ((n2 : ℚ) / (d2 : ℚ))⌋ := by
    rw [hABq]
    exact fdiv_floor_rat nq dq hdq
  have hmv : (nm : ℚ) / (dm : ℚ) =
      (Int.fdiv nq dq : ℚ) * ((n2 : ℚ) / (d2 : ℚ)) := by
    rw [hmval]
    push_cast
    field_simp
  have hval : (n : ℚ) / (d : ℚ) = (n1 : ℚ) / (d1 : ℚ) -
      (Int.fdiv nq dq : ℚ) * ((n2 : ℚ) / (d2 : ℚ)) := by
    rw [hrval, ← hmv]
    push_cast
    field_simp
    ring
  have hfloor_val : (n : ℚ) / (d : ℚ) = (n1 : ℚ) / (d1 : ℚ) -
      ⌊((n1 : ℚ) / (d1 : ℚ)) / ((n2 : ℚ) / (d2 : ℚ))⌋ * ((n2 : ℚ) / (d2 : ℚ)) := by
    rw [hval, hq_floor]
  have hBne : (n2 : ℚ) / (d2 : ℚ) ≠ 0 := div_ne_zero hn2Q hd2Q
  have hfract : (n : ℚ) / (d : ℚ) = ((n2 : ℚ) / (d2 : ℚ)) *
      Int.fract (((n1 : ℚ) / (d1 : ℚ)) / ((n2 : ℚ) / (d2 : ℚ))) := by
    have hBA : ((n2 : ℚ) / (d2 : ℚ)) *
        (((n1 : ℚ) / (d1 : ℚ)) / ((n2 : ℚ) / (d2 : ℚ))) = (n1 : ℚ) / (d1 : ℚ) :=
      mul_div_cancel₀ _ hBne
    rw [hfloor_val, Int.fract, mul_sub, hBA]
    ring
  have hf0 := Int.fract_nonneg (((n1 : ℚ) / (d1 : ℚ)) / ((n2 : ℚ) / (d2 : ℚ)))
  have hf1 := Int.fract_lt_one (((n1 : ℚ) / (d1 : ℚ)) / ((n2 : ℚ) / (d2 : ℚ)))
  refine ⟨n, d, hcomp, hd, hfloor_val, ?_, ?_⟩
  · intro hB
    constructor
    · rw [hfract]
      exact mul_nonneg hB.le hf0
    · rw [hfract]
      nlinarith
  · intro hB
    constructor
    · rw [hfract]
      nlinarith
    · rw [hfract]
      nlinarith

/-- C5, instantiated at `(7//2) mod (3//2)` (a positive divisor) and
`(7//2) mod (-3//2)` (a negative one). -/
theorem C5_frac_mod_floor_witness :
    (∃ n d, cval_op2 (VFrac 7 2) (VFrac 3 2) .MOD = .ok (VFrac n d) ∧ (0 : ℤ) < d ∧
      (n : ℚ) / (d : ℚ) = (7 : ℚ) / (2 : ℚ) -
        ⌊((7 : ℚ) / (2 : ℚ)) / ((3 : ℚ) / (2 : ℚ))⌋ * ((3 : ℚ) / (2 : ℚ)) ∧
      (0 < (3 : ℚ) / (2 : ℚ) →
        0 ≤ (n : ℚ) / (d : ℚ) ∧ (n : ℚ) / (d : ℚ) < (3 : ℚ) / (2 : ℚ)) ∧
      ((3 : ℚ) / (2 : ℚ) < 0 →
        (3 : ℚ) / (2 : ℚ) < (n : ℚ) / (d : ℚ) ∧ (n : ℚ) / (d : ℚ) ≤ 0)) ∧
    (∃ n d, cval_op2 (VFrac 7 2) (VFrac (-3) 2) .MOD = .ok (VFrac n d) ∧ (0 : ℤ) < d ∧
      (n : ℚ) / (d : ℚ) = (7 : ℚ) / (2 : ℚ) -
        ⌊((7 : ℚ) / (2 : ℚ)) / (((-3 : ℤ) : ℚ) / (2 : ℚ))⌋ * (((-3 : ℤ) : ℚ) / (2 : ℚ)) ∧
      (0 < ((-3 : ℤ) : ℚ) / (2 : ℚ) →
        0 ≤ (n : ℚ) / (d : ℚ) ∧ (n : ℚ) / (d : ℚ) < ((-3 : ℤ) : ℚ) / (2 : ℚ)) ∧
      (((-3 : ℤ) : ℚ) / (2 : ℚ) < 0 →
        ((-3 : ℤ) : ℚ) / (2 : ℚ) < (n : ℚ) / (d : ℚ) ∧ (n : ℚ) / (d : ℚ) ≤ 0)) := by
  constructor
  · simpa using C5_frac_mod_floor 7 2 3 2 (by decide) (by decide) (by decide)
  · simpa using C5_frac_mod_floor 7 2 (-3) 2 (by decide) (by decide) (by decide)

/-! ### C7: Float and Decimal never silently mix -/

/-- C7: a binary operation on a Float and a Decimal operand, in either order,
is dispatched to the binary-float kind (the larger of the two), whose operand
conversion `to_float` rejects a decimal, so every such operation is the type
error "cannot convert to float" — no implicit conversion ever happens. -/
theorem C7_float_decimal_mix_error (f dv : DecVal) (op : BCOP2Enum) :
    cval_op2 (VFloat f) (VDec dv) op = .err ⟨.TYPE, "cannot convert to float"⟩ ∧
    cval_op2 (VDec dv) (VFloat f) op = .err ⟨.TYPE, "cannot convert to float"⟩ :=
  ⟨rfl, rfl⟩

/-! ### C8: invmod and its extended-gcd loop -/

/-- C8: the spec's examples hold — `invmod(2,4)` is the range error "not
invertible", `invmod(3,7) = 5`, and a non-positive modulus is the range
error "the modulo must be positive" — but `invmod(-1, 2)` also reports "not
invertible" even though `gcd(-1,2) = 1` and `-1` IS invertible modulo 2
(`(-1)*1 ≡ 1 (mod 2)`): `bf_invmod`'s extended-gcd loop starts at
`(u,v) = (x,y)` with cofactors `(1,0)`, so for `x = -1` the loop exits with
`v = emod y (-1) = ... = -1 ≠ 1` and the success test `v == 1` fails. -/
theorem C8_invmod_not_invertible_bug :
    cint_invmod (VInt 2) (VInt 4) = .err ⟨.RANGE, "not invertible"⟩ ∧
    cint_invmod (VInt 3) (VInt 7) = .ok (VInt 5) ∧
    cint_invmod (VInt 3) (VInt 0) = .err ⟨.RANGE, "the modulo must be positive"⟩ ∧
    cint_invmod (VInt (-1)) (VInt 2) = .err ⟨.RANGE, "not invertible"⟩ ∧
    Int.gcd (-1) 2 = 1 ∧ Int.emod ((-1) * 1) 2 = 1 :=
  ⟨rfl, rfl, rfl, rfl, rfl, rfl⟩

/-! ### C10: string indexing with a single integer -/

/-- The single-integer branch of `cstring_getitem`, with the `cint_to_int`
conversion still symbolic. -/
theorem cstring_getitem_int (s : List Char) (i : ℤ) :
    cstring_getitem [VString s, VInt i] =
      match cint_to_int (VInt i) with
      | .error e => .err e
      | .ok idx0 =>
          let idx := if idx0 < 0 then idx0 + (cstring_len s : ℤ) else idx0
          if idx < 0 ∨ (cstring_len s : ℤ) ≤ idx then
            cval_range_error "array index out of bounds"
          else .ok (cstring_slice s idx.toNat (idx + 1).toNat) := rfl

/-- The same branch once the index fits a signed 32-bit integer. -/
theorem cstring_getitem_int_ok (s : List Char) (i : ℤ)
    (hsmall : ¬ (i < -(2 ^ 31) ∨ 2 ^ 31 ≤ i)) :
    cstring_getitem [VString s, VInt i] =
      if (if i < 0 then i + (cstring_len s : ℤ) else i) < 0 ∨
          (cstring_len s : ℤ) ≤ (if i < 0 then i + (cstring_len s : ℤ) else i) then
        cval_range_error "array index out of bounds"
      else .ok (cstring_slice s
        (if i < 0 then i + (cstring_len s : ℤ) else i).toNat
        ((if i < 0 then i + (cstring_len s : ℤ) else i) + 1).toNat) := by
  rw [cstring_getitem_int]
  simp only [cint_to_int, if_neg hsmall]

/-- C10: indexing a String with one integer `i` resolves a negative `i`
Python-style to `i + n` (`n` the number of code points); if the resolved
index is in `[0, n)` the result is the one-code-point substring there,
otherwise the range error "array index out of bounds" — and an `i` outside
the signed 32-bit range is the range error "integer is too large" (still a
RangeError, raised by the index conversion itself). -/
theorem C10_string_getitem (s : List Char) (i idx : ℤ)
    (hidx : idx = if i < 0 then i + (cstring_len s : ℤ) else i) :
    (¬ (i < -(2 ^ 31) ∨ 2 ^ 31 ≤ i) →
      (0 ≤ idx ∧ idx < (cstring_len s : ℤ) →
        cstring_getitem [VString s, VInt i] =
          .ok (VString ((s.drop idx.toNat).take 1))) ∧
      (idx < 0 ∨ (cstring_len s : ℤ) ≤ idx →
        cstring_getitem [VString s, VInt i] =
          .err ⟨.RANGE, "array index out of bounds"⟩)) ∧
    (i < -(2 ^ 31) ∨ 2 ^ 31 ≤ i →
      cstring_getitem [VString s, VInt i] = .err ⟨.RANGE, "integer is too large"⟩) := by
  constructor
  · intro hsmall
    have hred := cstring_getitem_int_ok s i hsmall
    rw [← hidx] at hred
    constructor
    · rintro ⟨h0, hlt⟩
      rw [hred, if_neg (by omega)]
      have h1 : (idx + 1).toNat - idx.toNat = 1 := by omega
      simp only [cstring_slice]
      rw [h1]
    · intro hout
      rw [hred, if_pos hout]
      rfl
  · intro hbig
    rw [cstring_getitem_int]
    simp only [cint_to_int, if_pos hbig]

/-- C10, instantiated on `"abc"`: index `-1` resolves to `2` and yields
`"c"`, index `10` is out of bounds, and a 33-bit index overflows the
`int32` conversion. -/
theorem C10_string_getitem_witness :
    cstring_getitem [VString ['a', 'b', 'c'], VInt (-1)] = .ok (VString ['c']) ∧
    cstring_getitem [VString ['a', 'b', 'c'], VInt 10] =
      .err ⟨.RANGE, "array index out of bounds"⟩ ∧
    cstring_getitem [VString ['a', 'b', 'c'], VInt (2 ^ 32)] =
      .err ⟨.RANGE, "integer is too large"⟩ := by
  refine ⟨?_, ?_, ?_⟩
  · exact ((C10_string_getitem ['a', 'b', 'c'] (-1) 2 (by decide)).1
      (by decide)).1 (by decide)
  · exact ((C10_string_getitem ['a', 'b', 'c'] 10 10 (by decide)).1
      (by decide)).2 (by decide)
  · exact (C10_string_getitem ['a', 'b', 'c'] (2 ^ 32) (2 ^ 32) (by decide)).2
      (by decide)

/-! ### C4: series precision of add and mul -/

theorem buildN_length (f : ℕ → Except BCError BCValue) :
    ∀ n l, buildN f n = .ok l → l.length = n := by
  intro n
  induction n with
  | zero =>
      intro l h
      cases h
      rfl
  | succ m ih =>
      intro l h
      simp only [buildN] at h
      split at h
      · cases h
      · rename_i l0 hl0
        split at h
        · cases h
        · rename_i c hc
          cases h
          simp [ih l0 hl0]

theorem ser_new_len (el : BCTypeDesc) (len : ℕ) (emin : ℤ) (r : BCSeries)
    (h : ser_new el len emin = .ok r) : r.tab.length = len := by
  simp only [ser_new] at h
  split at h
  · cases h
  · split at h
    · cases h
    · rename_i z hz
      cases h
      exact List.length_replicate _ _

theorem ser_new2_len (t1 t2 : BCTypeDesc) (len : ℕ) (emin : ℤ) (r : BCSeries)
    (h : ser_new2 t1 t2 len emin = .ok r) : r.tab.length = len := by
  simp only [ser_new2] at h
  split at h
  · cases h
  · exact ser_new_len _ _ _ _ h

theorem ser_mul_jloop_length (c1 : BCValue) (p2 : List BCValue) (i : ℕ) :
    ∀ js tab out, ser_mul_jloop c1 p2 i tab js = .ok out →
      out.length = tab.length := by
  intro js
  induction js with
  | nil =>
      intro tab out h
      cases h
      rfl
  | cons j rest ih =>
      intro tab out h
      simp only [ser_mul_jloop] at h
      split at h
      · cases h
      · rename_i prod hprod
        split at h
        · cases h
        · rename_i s hs
          have := ih (tab.set (i + j) s) out h
          simpa [List.length_set] using this

theorem ser_mul_iloop_length (p1 p2 : List BCValue) (n : ℕ) :
    ∀ is0 tab out, ser_mul_iloop p1 p2 n tab is0 = .ok out →
      out.length = tab.length := by
  intro is0
  induction is0 with
  | nil =>
      intro tab out h
      cases h
      rfl
  | cons i rest ih =>
      intro tab out h
      simp only [ser_mul_iloop] at h
      split at h
      · cases h
      · rename_i tab1 htab1
        rw [ih tab1 out h, ser_mul_jloop_length _ _ _ _ _ _ htab1]

/-- C4: on two series operands, the raw sum (`ser_add` before its final
`ser_trim`) has valuation `min(emin1, emin2)` and keeps terms strictly below
`min(emin1+len1, emin2+len2)`, and the raw product (`ser_mul` before
`ser_trim`) has valuation `emin1+emin2` and length `min(len1, len2)`; the
public `ser_add`/`ser_mul` are exactly those raw results followed by the
canonical trimming of leading zero coefficients. -/
theorem C4_series_add_mul_precision (s1 s2 : BCSeries) :
    (∀ r, ser_add_raw s1 s2 = .ok r →
      r.emin = min s1.emin s2.emin ∧
      r.emin + (r.tab.length : ℤ) =
        min (s1.emin + (s1.tab.length : ℤ)) (s2.emin + (s2.tab.length : ℤ))) ∧
    (∀ r, ser_mul_raw s1 s2 = .ok r →
      r.emin = s1.emin + s2.emin ∧
      r.tab.length = min s1.tab.length s2.tab.length) ∧
    (∀ r, ser_add s1 s2 = .ok r →
      ∃ r0, ser_add_raw s1 s2 = .ok r0 ∧ r = ser_trim r0) ∧
    (∀ r, ser_mul s1 s2 = .ok r →
      ∃ r0, ser_mul_raw s1 s2 = .ok r0 ∧ r = ser_trim r0) := by
  refine ⟨?_, ?_, ?_, ?_⟩
  · intro r h
    simp only [ser_add_raw] at h
    split at h
    · cases h
    · rename_i r0 heq0
      split at h
      · cases h
      · rename_i tab hbuild
        cases h
        have hlen := buildN_length _ _ _ hbuild
        refine ⟨rfl, ?_⟩
        dsimp only
        rw [hlen]
        omega
  · intro r h
    simp only [ser_mul_raw] at h
    split at h
    · cases h
    · rename_i r0 heq0
      split at h
      · cases h
      · rename_i tab hloop
        cases h
        refine ⟨rfl, ?_⟩
        dsimp only
        rw [ser_mul_iloop_length _ _ _ _ _ _ hloop, ser_new2_len _ _ _ _ _ heq0]
  · intro r h
    simp only [ser_add] at h
    split at h
    · cases h
    · rename_i r0 h0
      cases h
      exact ⟨r0, h0, rfl⟩
  · intro r h
    simp only [ser_mul] at h
    split at h
    · cases h
    · rename_i r0 h0
      cases h
      exact ⟨r0, h0, rfl⟩

/-- A concrete check of the combined-precision rules: adding the integer
series `1 + 2x + O(x^2)` and `3x + 4x^2 + O(x^3)` keeps terms below
`x^2` with valuation 0, and multiplying `x(2 + 3x) + O(x^3)` by
`1 + 4x + O(x^2)` gives valuation 1 and two coefficients. -/
theorem ser_add_mul_examples :
    ser_add_raw ⟨.scalar .INT, 0, [VInt 1, VInt 2]⟩ ⟨.scalar .INT, 1, [VInt 3, VInt 4]⟩ =
      .ok ⟨.scalar .INT, 0, [VInt 1, VInt 5]⟩ ∧
    ser_mul_raw ⟨.scalar .INT, 1, [VInt 2, VInt 3]⟩ ⟨.scalar .INT, 0, [VInt 1, VInt 4]⟩ =
      .ok ⟨.scalar .INT, 1, [VInt 2, VInt 11]⟩ := ⟨rfl, rfl⟩

/-! ### C9: negative reals promote to complex under sqrt and log -/

/-- `complex_new 0 s` succeeds for every real-number scalar `s` (the element
type is the promotion of `INT` with the kind of `s`). -/
theorem complex_new_zero_real (s : BCValue)
    (hr : is_real_number (cval_type s) = true) :
    ∃ el re im, complex_new (VInt 0) s = .ok (VComplex el re im) := by
  cases s <;> first
    | exact ⟨_, _, _, rfl⟩
    | simp [is_real_number, cval_type] at hr

/-- The negative-operand redirect of `cval_sqrt`: when the operand is a real
scalar comparing below zero, its negation no longer does, and the square root
of the negation is a real scalar, the result is the complex value
`complex_new(0, sqrt(-v))`. -/
theorem cval_sqrt_neg_ok (v nv s : BCValue)
    (hle : ctypeLe (cval_type v) .FLOAT = true)
    (hneg : cval_cmp_lt_int v 0 = true)
    (hnv : cval_op1 v .NEG = .ok nv)
    (hnn : cval_cmp_lt_int nv 0 = false)
    (hs : cval_op1 nv .SQRT = .ok s)
    (hr : is_real_number (cval_type s) = true) :
    ∃ el re im, cval_sqrt v = .ok (VComplex el re im) := by
  obtain ⟨el, re, im, hc⟩ := complex_new_zero_real s hr
  refine ⟨el, re, im, ?_⟩
  unfold cval_sqrt
  simp only [cval_sqrt_aux]
  rw [if_pos ⟨hle, hneg⟩, hnv]
  simp only [BCResult.bind]
  have hcneg : ¬ (ctypeLe (cval_type nv) .FLOAT = true ∧
      cval_cmp_lt_int nv 0 = true) := by
    rintro ⟨_, h⟩
    rw [hnn] at h
    cases h
  rw [if_neg hcneg, hs]
  simp only [BCResult.bind]
  exact hc

/-- The scalar square root without the redirect: on an operand that does not
compare below zero it is the plain scalar dispatch. -/
theorem cval_sqrt_scalar_nonneg (v s : BCValue)
    (hnn : cval_cmp_lt_int v 0 = false)
    (hs : cval_op1_scalar v .SQRT = .ok s) :
    cval_sqrt_scalar v = .ok s := by
  unfold cval_sqrt_scalar
  simp only [cval_sqrt_scalar_aux]
  have hcneg : ¬ (ctypeLe (cval_type v) .FLOAT = true ∧
      cval_cmp_lt_int v 0 = true) := by
    rintro ⟨_, h⟩
    rw [hnn] at h
    cases h
  rw [if_neg hcneg, hs]

/-- The negative-operand redirect of `cval_log`: a real scalar comparing
below zero is lifted to complex first. -/
theorem cval_log_redirect (v w : BCValue)
    (hle : ctypeLe (cval_type v) .FLOAT = true)
    (hneg : cval_cmp_lt_int v 0 = true)
    (hw : to_complex v = .ok w) :
    cval_log v = cval_op1 w .LOG := by
  unfold cval_log
  rw [if_pos ⟨hle, hneg⟩, hw]
  simp only [BCResult.bind]

/-- `complex_log` pipeline: when every stage succeeds the result is the
complex value `complex_new(log |v|, atan2(im, re))`. -/
theorem complex_log_ok (el : BCTypeEnum) (re im arg n s l : BCValue)
    (hatan : cval_atan2 im re = .ok arg)
    (hnorm : complex_norm2 (VComplex el re im) = .ok n)
    (hsqrt : cval_sqrt_scalar n = .ok s)
    (hlog : cval_op1_scalar s .LOG = .ok l)
    (hcn : ∃ el2 re2 im2, complex_new l arg = .ok (VComplex el2 re2 im2)) :
    ∃ el2 re2 im2, cval_op1 (VComplex el re im) .LOG = .ok (VComplex el2 re2 im2) := by
  obtain ⟨el2, re2, im2, hc⟩ := hcn
  refine ⟨el2, re2, im2, ?_⟩
  show ((cval_atan2 im re).bind fun arg =>
      ((complex_norm2 (VComplex el re im)).bind fun n => cval_sqrt_scalar n).bind fun r =>
      (cval_op1_scalar r .LOG).bind fun l => complex_new l arg) = _
  rw [hatan]
  simp only [BCResult.bind]
  rw [hnorm]
  simp only [BCResult.bind]
  rw [hsqrt]
  simp only [BCResult.bind]
  rw [hlog]
  simp only [BCResult.bind]
  exact hc

theorem num_nonneg_of_div_nonneg {x y : ℤ} (hy : 0 < y)
    (h : 0 ≤ (x : ℚ) / (y : ℚ)) : 0 ≤ x := by
  by_contra hx
  push_neg at hx
  have hxQ : (x : ℚ) < 0 := by exact_mod_cast hx
  have hyQ : (0 : ℚ) < (y : ℚ) := by exact_mod_cast hy
  have := div_neg_of_neg_of_pos hxQ hyQ
  linarith

/-- C9: sub-Decimal real operands of sqrt/exp/log/trig are promoted to
Decimal first (the promotion branch of `cval_op1`); and a negative real
operand — Integer, reduced Fraction, finite Decimal or finite Float — of
`sqrt` or `log` is silently promoted to Complex: both return a Complex value
instead of raising an error. -/
theorem C9_negative_real_promotions :
    (∀ (v : BCValue) (op : BCOP1Enum), op1_promotes_to_dec op = true →
        ctypeLt (cval_type v) .DECIMAL = true →
        cval_op1 v op = (to_dec v).bind fun w => cval_op1_dispatch w op) ∧
    (∀ n : ℤ, n < 0 →
        (∃ el re im, cval_sqrt (VInt n) = .ok (VComplex el re im)) ∧
        (∃ el re im, cval_log (VInt n) = .ok (VComplex el re im))) ∧
    (∀ n d : ℤ, 0 < d → n < 0 →
        (∃ el re im, cval_sqrt (VFrac n d) = .ok (VComplex el re im)) ∧
        (∃ el re im, cval_log (VFrac n d) = .ok (VComplex el re im))) ∧
    (∀ q : ℚ, q < 0 →
        (∃ el re im, cval_sqrt (VDec (.fin q)) = .ok (VComplex el re im)) ∧
        (∃ el re im, cval_log (VDec (.fin q)) = .ok (VComplex el re im))) ∧
    (∀ q : ℚ, q < 0 →
        (∃ el re im, cval_sqrt (VFloat (.fin q)) = .ok (VComplex el re im)) ∧
        (∃ el re im, cval_log (VFloat (.fin q)) = .ok (VComplex el re im))) := by
  refine ⟨?_, ?_, ?_, ?_, ?_⟩
  · intro v op hop hlt
    unfold cval_op1 cval_op1_body
    rw [if_pos ⟨hop, hlt⟩]
  · intro n hn
    constructor
    · refine cval_sqrt_neg_ok (VInt n) (VInt (-n))
        (VDec (decSqrt (.fin ((-n : ℤ) : ℚ)))) rfl ?_ rfl ?_ rfl rfl
      · show decide (n < 0) = true
        exact decide_eq_true hn
      · show decide (-n < 0) = false
        exact decide_eq_false (by omega)
    · have hred := cval_log_redirect (VInt n) (VComplex .INT (VInt n) (VInt 0)) rfl
        (by show decide (n < 0) = true; exact decide_eq_true hn) rfl
      rw [hred]
      refine complex_log_ok .INT (VInt n) (VInt 0) _ (VInt (n * n + 0 * 0))
        (VDec (decSqrt (.fin ((n * n + 0 * 0 : ℤ) : ℚ))))
        (VDec (decLog (decSqrt (.fin ((n * n + 0 * 0 : ℤ) : ℚ)))))
        rfl rfl ?_ rfl ⟨.DECIMAL, _, _, rfl⟩
      refine cval_sqrt_scalar_nonneg _ _ ?_ rfl
      show decide (n * n + 0 * 0 < 0) = false
      exact decide_eq_false (by nlinarith [mul_self_nonneg n])
  · intro n d hd hn
    constructor
    · refine cval_sqrt_neg_ok (VFrac n d) (VFrac (-n) d)
        (VDec (decSqrt (decDiv (.fin ((-n : ℤ) : ℚ)) (.fin (d : ℚ))))) rfl ?_ rfl ?_ rfl rfl
      · show decide (n * 1 < d * 0) = true
        exact decide_eq_true (by omega)
      · show decide (-n * 1 < d * 0) = false
        exact decide_eq_false (by omega)
    · have hred := cval_log_redirect (VFrac n d) (VComplex .FRAC (VFrac n d) (VFrac 0 1)) rfl
        (by show decide (n * 1 < d * 0) = true; exact decide_eq_true (by omega)) rfl
      rw [hred]
      obtain ⟨nA, dA, hA, ⟨hdA, _⟩, hAv⟩ :=
        cfrac_new_spec (n * n) (d * d) (mul_pos hd hd).ne'
      obtain ⟨nN, dN, hN, ⟨hdN, _⟩, hNv⟩ :=
        cfrac_new_spec (nA * 1 + 0 * dA) (dA * 1) (by simpa using hdA.ne')
      have hnorm : complex_norm2 (VComplex .FRAC (VFrac n d) (VFrac 0 1)) =
          .ok (VFrac nN dN) := by
        show ((cval_op2_scalar (VFrac n d) (VFrac n d) .MUL).bind fun a =>
          (cval_op2_scalar (VFrac 0 1) (VFrac 0 1) .MUL).bind fun b =>
          cval_op2_scalar a b .ADD) = _
        rw [show cval_op2_scalar (VFrac n d) (VFrac n d) .MUL =
          cfrac_new (n * n) (d * d) from rfl, hA]
        simp only [BCResult.bind]
        rw [show cval_op2_scalar (VFrac 0 1) (VFrac 0 1) .MUL =
          .ok (VFrac 0 1) from rfl]
        simp only [BCResult.bind]
        rw [show cval_op2_scalar (VFrac nA dA) (VFrac 0 1) .ADD =
          cfrac_new (nA * 1 + 0 * dA) (dA * 1) from rfl]
        exact hN
      have hnN : 0 ≤ nN := by
        have h1 : (0 : ℚ) ≤ (nA : ℚ) / (dA : ℚ) := by
          rw [hAv]
          push_cast
          exact div_nonneg (mul_self_nonneg _) (mul_self_nonneg _)
        have h2 : (0 : ℚ) ≤ (nN : ℚ) / (dN : ℚ) := by
          rw [hNv]
          push_cast
          simpa using h1
        exact num_nonneg_of_div_nonneg hdN h2
      refine complex_log_ok .FRAC (VFrac n d) (VFrac 0 1) _ (VFrac nN dN)
        (VDec (decSqrt (decDiv (.fin (nN : ℚ)) (.fin (dN : ℚ)))))
        (VDec (decLog (decSqrt (decDiv (.fin (nN : ℚ)) (.fin (dN : ℚ))))))
        rfl hnorm ?_ rfl ⟨.DECIMAL, _, _, rfl⟩
      refine cval_sqrt_scalar_nonneg _ _ ?_ rfl
      show decide (nN * 1 < dN * 0) = false
      exact decide_eq_false (by omega)
  · intro q hq
    constructor
    · refine cval_sqrt_neg_ok (VDec (.fin q)) (VDec (.fin (-q)))
        (VDec (decSqrt (.fin (-q)))) rfl ?_ rfl ?_ rfl rfl
      · show decide (q < ((0 : ℤ) : ℚ)) = true
        exact decide_eq_true (by exact_mod_cast hq)
      · show decide (-q < ((0 : ℤ) : ℚ)) = false
        exact decide_eq_false (by push_cast; linarith)
    · have hred := cval_log_redirect (VDec (.fin q))
        (VComplex .DECIMAL (VDec (.fin q)) (VDec (.fin ((0 : ℤ) : ℚ)))) rfl
        (by show decide (q < ((0 : ℤ) : ℚ)) = true
            exact decide_eq_true (by exact_mod_cast hq)) rfl
      rw [hred]
      refine complex_log_ok .DECIMAL (VDec (.fin q)) (VDec (.fin ((0 : ℤ) : ℚ))) _
        (VDec (.fin (q * q + ((0 : ℤ) : ℚ) * ((0 : ℤ) : ℚ))))
        (VDec (decSqrt (.fin (q * q + ((0 : ℤ) : ℚ) * ((0 : ℤ) : ℚ)))))
        (VDec (decLog (decSqrt (.fin (q * q + ((0 : ℤ) : ℚ) * ((0 : ℤ) : ℚ))))))
        rfl rfl ?_ rfl ⟨.DECIMAL, _, _, rfl⟩
      refine cval_sqrt_scalar_nonneg _ _ ?_ rfl
      show decide (q * q + ((0 : ℤ) : ℚ) * ((0 : ℤ) : ℚ) < ((0 : ℤ) : ℚ)) = false
      exact decide_eq_false (by push_cast; nlinarith [mul_self_nonneg q])
  · intro q hq
    constructor
    · refine cval_sqrt_neg_ok (VFloat (.fin q)) (VFloat (.fin (-q)))
        (VFloat (decSqrt (.fin (-q)))) rfl ?_ rfl ?_ rfl rfl
      · show decide (q < ((0 : ℤ) : ℚ)) = true
        exact decide_eq_true (by exact_mod_cast hq)
      · show decide (-q < ((0 : ℤ) : ℚ)) = false
        exact decide_eq_false (by push_cast; linarith)
    · have hred := cval_log_redirect (VFloat (.fin q))
        (VComplex .FLOAT (VFloat (.fin q)) (VFloat (.fin ((0 : ℤ) : ℚ)))) rfl
        (by show decide (q < ((0 : ℤ) : ℚ)) = true
            exact decide_eq_true (by exact_mod_cast hq)) rfl
      rw [hred]
      refine complex_log_ok .FLOAT (VFloat (.fin q)) (VFloat (.fin ((0 : ℤ) : ℚ))) _
        (VFloat (.fin (q * q + ((0 : ℤ) : ℚ) * ((0 : ℤ) : ℚ))))
        (VFloat (decSqrt (.fin (q * q + ((0 : ℤ) : ℚ) * ((0 : ℤ) : ℚ)))))
        (VFloat (decLog (decSqrt (.fin (q * q + ((0 : ℤ) : ℚ) * ((0 : ℤ) : ℚ))))))
        rfl rfl ?_ rfl ⟨.FLOAT, _, _, rfl⟩
      refine cval_sqrt_scalar_nonneg _ _ ?_ rfl
      show decide (q * q + ((0 : ℤ) : ℚ) * ((0 : ℤ) : ℚ) < ((0 : ℤ) : ℚ)) = false
      exact decide_eq_false (by push_cast; nlinarith [mul_self_nonneg q])
